import Mathlib

/-!
# Verification of the DRAPElayers-Copilot sizing recommendation engine

Shallow embedding of the sizing engine in `src/assets/dl-copilot-styling.js`
(the module published as `window.DLCopilotSizing`).  Text is modelled as
`List Char`; JS `null`/`undefined` as `Option`; the JS truthiness tests that
the code performs on numbers and strings are modelled explicitly
(`truthyN`, `truthyS`: `0` and the empty string are falsy).  The regular
expressions used by the engine are embedded as explicit leftmost-match
scanners with JavaScript word-boundary (`\b`) semantics.
-/

namespace DLSizing

/-- Text is a list of characters (the engine only manipulates plain strings). -/
abbrev Str := List Char

/-- ASCII lower-casing of one character (JS `toLowerCase` restricted to the
ASCII range that the engine's data uses). -/
def jsLowerChar (c : Char) : Char :=
  if 'A' ≤ c ∧ c ≤ 'Z' then Char.ofNat (c.toNat + 32) else c

/-- `lower(v)` from the source: lowercase the whole string. -/
def lowerL (s : Str) : Str := s.map jsLowerChar

/-- JS word character (`\w` = `[A-Za-z0-9_]`), used for `\b` boundaries. -/
def isWordChar (c : Char) : Bool :=
  (('a' ≤ c ∧ c ≤ 'z') ∨ ('A' ≤ c ∧ c ≤ 'Z') ∨ ('0' ≤ c ∧ c ≤ '9') ∨ c = '_')

/-- Word-character test on the character preceding the scan position
(`none` = start of string, which is a non-word position). -/
def wordOpt : Option Char → Bool
  | none => false
  | some c => isWordChar c

/-- A `\b` word boundary holds after a word character when the following
text is empty or starts with a non-word character. -/
def boundaryAfter : Str → Bool
  | [] => true
  | c :: _ => !isWordChar c

/-- JS whitespace (`\s`) for the ASCII characters the engine meets. -/
def isWS (c : Char) : Bool := c = ' ' ∨ c = '\t' ∨ c = '\n' ∨ c = '\r'

/-- `String.prototype.trim` on both ends. -/
def jsTrim (s : Str) : Str :=
  ((s.dropWhile isWS).reverse.dropWhile isWS).reverse

/-- `haystack.indexOf(needle) !== -1` (substring containment). -/
def hasSub (needle : Str) : Str → Bool
  | [] => needle.isEmpty
  | c :: rest => needle.isPrefixOf (c :: rest) || hasSub needle rest

/-- `containsAny(haystack, needles)` from the source (both sides lowered). -/
def containsAnyL (hay : Str) (needles : List Str) : Bool :=
  needles.any (fun nd => hasSub (lowerL nd) (lowerL hay))

/-- JS truthiness of a possibly-null number (`0`, `null` are falsy). -/
def truthyN : Option Int → Bool
  | none => false
  | some n => n ≠ 0

/-- JS truthiness of a possibly-null string (`''`, `null` are falsy). -/
def truthyS : Option Str → Bool
  | none => false
  | some s => s ≠ []

/-- Numeric value of a digit run. -/
def natOfDigits (ds : Str) : Nat :=
  ds.foldl (fun a c => 10 * a + (c.toNat - '0'.toNat)) 0

/-- `parseIntSafe(x)` from the source: JS `parseInt(x, 10)` (skip leading
whitespace, optional sign, longest leading digit run), `null` when no digit
is found (`NaN`). -/
def parseIntSafe (s : Str) : Option Int :=
  let s1 := s.dropWhile isWS
  match s1 with
  | '-' :: r =>
      let d := r.takeWhile Char.isDigit
      if d = [] then none else some (-(natOfDigits d : Int))
  | '+' :: r =>
      let d := r.takeWhile Char.isDigit
      if d = [] then none else some ((natOfDigits d : Int))
  | r =>
      let d := r.takeWhile Char.isDigit
      if d = [] then none else some ((natOfDigits d : Int))

/-- `clamp(n, min, max)` from the source (callers pass real numbers). -/
def clampI (n mn mx : Int) : Int :=
  if n < mn then mn else if n > mx then mx else n

/-! ## Alpha sizes -/

/-- `ALPHA_ORDER` from the source. -/
def ALPHA_ORDER : List Str :=
  ["xxs".toList, "xs".toList, "s".toList, "m".toList,
   "l".toList, "xl".toList, "xxl".toList, "xxxl".toList]

/-- ASCII upper-casing (for the normalized alpha result). -/
def jsUpperChar (c : Char) : Char :=
  if 'a' ≤ c ∧ c ≤ 'z' then Char.ofNat (c.toNat - 32) else c

def upperL (s : Str) : Str := s.map jsUpperChar

/-- One alias rewrite of `normalizeAlphaSize` (`if (v === a) v = b`). -/
def aliasStep (a b v : Str) : Str := if v = a then b else v

/-- One alias rewrite with two accepted spellings. -/
def aliasStep2 (a1 a2 b v : Str) : Str := if v = a1 ∨ v = a2 then b else v

/-- The common-alias rewrite chain of `normalizeAlphaSize`, in source
order. -/
def aliasChain (v : Str) : Str :=
  aliasStep2 "3xl".toList "xxxl".toList "xxxl".toList
    (aliasStep2 "2xl".toList "xxl".toList "xxl".toList
      (aliasStep "extra large".toList "xl".toList
        (aliasStep "large".toList "l".toList
          (aliasStep "medium".toList "m".toList
            (aliasStep "small".toList "s".toList
              (aliasStep "extra small".toList "xs".toList v))))))

/-- `normalizeAlphaSize(val)` from the source: lowercase, strip dots, trim,
rewrite the word aliases, strip dashes, and accept only members of
`ALPHA_ORDER` (returned uppercased). -/
def normalizeAlphaSize (val : Str) : Option Str :=
  if jsTrim ((lowerL val).filter (fun c => c ≠ '.')) = [] then none
  else
    if ALPHA_ORDER.contains
        ((aliasChain (jsTrim ((lowerL val).filter (fun c => c ≠ '.')))).filter
          (fun c => c ≠ '-')) then
      some (upperL ((aliasChain (jsTrim ((lowerL val).filter (fun c => c ≠ '.')))).filter
        (fun c => c ≠ '-')))
    else none

/-- `alphaToIndex(alpha)` from the source. -/
def alphaToIndex (alpha : Str) : Option Nat :=
  let a := (lowerL alpha).filter (fun c => c ≠ '-')
  if a = "xxs".toList then some 0
  else if a = "xs".toList then some 1
  else if a = "s".toList then some 2
  else if a = "m".toList then some 3
  else if a = "l".toList then some 4
  else if a = "xl".toList then some 5
  else if a = "xxl".toList then some 6
  else if a = "xxxl".toList then some 7
  else none

/-! ## Size systems, categories, genders -/

/-- `SIZE_SYSTEMS` from the source. -/
inductive SizeSystem
  | eu_numeric
  | shirt_collar_eu
  | alpha
  | waist_inch
deriving DecidableEq, Repr

/-- `CATEGORIES` from the source. -/
inductive Category
  | unknown | top | bottom | outerwear | shirt | knit | tshirt
  | trouser | coat | jacket | dress | skirt | blouse
deriving DecidableEq, Repr

/-- Gender strings `'male'` / `'female'` (the JS code uses `null` for
unknown, modelled as `Option Gender`). -/
inductive Gender
  | male | female
deriving DecidableEq, Repr

/-- Length categories `'short'`/`'standard'`/`'long'` returned by
`resolveLength`. -/
inductive LengthCat
  | short | standard | long
deriving DecidableEq, Repr

/-- The atomic required inputs used in `schema.required`. -/
inductive Atom
  | height_cm | weight_kg | usual_size_eu | shirt_size_eu | alpha_size | waist_inch
deriving DecidableEq, Repr

/-! ## Product model -/

/-- A product variant (`option1`..`option3`; further keys are `undefined`
in the data the engine reads). -/
structure Variant where
  option1 : Option Str := none
  option2 : Option Str := none
  option3 : Option Str := none
deriving DecidableEq, Repr

/-- The product description shape consumed by the engine.  All fields are
optional; a JS `null`/missing field is `none`. -/
structure Product where
  title : Option Str := none
  handle : Option Str := none
  ptype : Option Str := none
  vendor : Option Str := none
  tags : Option (List Str) := none
  options : Option (List Str) := none
  variants : Option (List Variant) := none
deriving DecidableEq, Repr

/-- `getProductText(product)`: join the truthy text fields (tag/option
arrays are joined even when empty, as in the source) and lowercase. -/
def getProductText : Option Product → Str
  | none => []
  | some p =>
      let parts : List Str :=
        (match p.title with | some s => if s ≠ [] then [s] else [] | none => []) ++
        (match p.handle with | some s => if s ≠ [] then [s] else [] | none => []) ++
        (match p.ptype with | some s => if s ≠ [] then [s] else [] | none => []) ++
        (match p.vendor with | some s => if s ≠ [] then [s] else [] | none => []) ++
        (match p.tags with | some l => [(l.intersperse " ".toList).flatten] | none => []) ++
        (match p.options with | some l => [(l.intersperse " ".toList).flatten] | none => [])
      lowerL (parts.intersperse " ".toList).flatten

/-- `getProductOptions(product)`. -/
def getProductOptions : Option Product → List Str
  | none => []
  | some p => match p.options with | some l => l | none => []

/-- `getProductVariants(product)`. -/
def getProductVariants : Option Product → List Variant
  | none => []
  | some p => match p.variants with | some l => l | none => []

/-- `getOptionIndexByName(product, nameMatchers)`: index of the first
option whose lowered name contains one of the matchers (the source mixes a
plain `indexOf` check and case-insensitive substring regexes; both are
"contains" on the lowered name).  JS returns `-1` when absent, modelled as
`none`. -/
def getOptionIndexByName (p : Option Product) (matchers : List Str) : Option Nat :=
  (getProductOptions p).findIdx? (fun o => matchers.any (fun m => hasSub (lowerL m) (lowerL o)))

/-- `uniq(arr)` from the source: keep first occurrences. -/
def uniqAux [DecidableEq α] (seen : List α) : List α → List α
  | [] => []
  | x :: xs => if x ∈ seen then uniqAux seen xs else x :: uniqAux (x :: seen) xs

def uniqL [DecidableEq α] (l : List α) : List α := uniqAux [] l

/-- Read `v['option' + (i+1)]` of a variant. -/
def variantOpt (v : Variant) : Nat → Option Str
  | 0 => v.option1
  | 1 => v.option2
  | 2 => v.option3
  | _ => none

/-- `collectOptionValues(product, optionIndex)`: truthy (non-empty) values
of the chosen option across variants, de-duplicated. -/
def collectOptionValues (p : Option Product) (optionIndex : Option Nat) : List Str :=
  match optionIndex with
  | none => []
  | some i =>
      uniqL ((getProductVariants p).filterMap (fun v =>
        match variantOpt v i with
        | some s => if s ≠ [] then some s else none
        | none => none))

/-! ## Classifier -/

/-- `inferGenderFromProduct(product)` from the source. -/
def inferGenderFromProduct (p : Option Product) : Option Gender :=
  let t := getProductText p
  if t = [] then none
  else if containsAnyL t ["women".toList, "woman".toList, "womenswear".toList,
      "ladies".toList, "female".toList] then some Gender.female
  else if containsAnyL t ["men".toList, "man".toList, "menswear".toList,
      "male".toList, "gentlemen".toList] then some Gender.male
  else
    match p with
    | some prod =>
        (match prod.handle with
         | some h0 =>
             if h0 ≠ [] then
               let h := lowerL h0
               if "woman-".toList.isPrefixOf h ∨ "women-".toList.isPrefixOf h then
                 some Gender.female
               else if "man-".toList.isPrefixOf h ∨ "men-".toList.isPrefixOf h then
                 some Gender.male
               else none
             else none
         | none => none)
    | none => none

/-- `inferCategoryFromProduct(product)` from the source. -/
def inferCategoryFromProduct (p : Option Product) : Category :=
  let t := getProductText p
  if t = [] then Category.unknown
  else if containsAnyL t ["overshirt".toList] then Category.shirt
  else if containsAnyL t ["shirt".toList] then Category.shirt
  else if containsAnyL t ["t-shirt".toList, "tee".toList, "tshirt".toList] then Category.tshirt
  else if containsAnyL t ["knit".toList, "sweater".toList, "jumper".toList,
      "cardigan".toList] then Category.knit
  else if containsAnyL t ["trouser".toList, "trousers".toList, "pants".toList,
      "pant".toList, "slack".toList, "slacks".toList] then Category.trouser
  else if containsAnyL t ["skirt".toList] then Category.skirt
  else if containsAnyL t ["coat".toList, "overcoat".toList] then Category.coat
  else if containsAnyL t ["jacket".toList, "blouson".toList, "outerwear".toList] then
    Category.jacket
  else if containsAnyL t ["dress".toList] then Category.dress
  else if containsAnyL t ["blouse".toList] then Category.blouse
  else if containsAnyL t ["top".toList, "tops".toList] then Category.top
  else if containsAnyL t ["bottom".toList, "bottoms".toList] then Category.bottom
  else Category.unknown

/-! ## Schema -/

/-- `available` snapshot attached by `detectSizeSchemaFromProduct`
(`extractAvailableSizes`). -/
structure Avail where
  raw : List Str := []
  numeric : List Int := []
  alphaList : List Str := []
  waist : List Int := []
deriving DecidableEq, Repr

/-- A size schema as built by `createSchema` and the `schemaFor*` builders.
`available` is absent (`none`) until `detectSizeSchemaFromProduct` attaches
one. -/
structure Schema where
  gender : Option Gender := none
  category : Category := Category.unknown
  system : SizeSystem := SizeSystem.eu_numeric
  askUsual : Bool := true
  required : List Atom := [Atom.height_cm, Atom.weight_kg, Atom.usual_size_eu]
  notes : List String := []
  available : Option Avail := none
deriving DecidableEq, Repr

/-- `schemaForMenswear(category)` from the source. -/
def schemaForMenswear (category : Category) : Schema :=
  if category = Category.shirt then
    { gender := some Gender.male, category := Category.shirt,
      system := SizeSystem.shirt_collar_eu, askUsual := true,
      required := [Atom.height_cm, Atom.weight_kg, Atom.shirt_size_eu],
      notes := ["mens_shirt_requires_collar_size"] }
  else if category = Category.trouser ∨ category = Category.bottom then
    { gender := some Gender.male, category := Category.trouser,
      system := SizeSystem.eu_numeric, askUsual := true,
      required := [Atom.height_cm, Atom.weight_kg, Atom.usual_size_eu],
      notes := ["mens_trouser_eu_numeric"] }
  else
    { gender := some Gender.male, category := category,
      system := SizeSystem.eu_numeric, askUsual := true,
      required := [Atom.height_cm, Atom.weight_kg, Atom.usual_size_eu],
      notes := ["mens_eu_numeric_default"] }

/-- `schemaForWomenswear(category)` from the source. -/
def schemaForWomenswear (category : Category) : Schema :=
  if category = Category.shirt ∨ category = Category.blouse then
    { gender := some Gender.female, category := category,
      system := SizeSystem.eu_numeric, askUsual := true,
      required := [Atom.height_cm, Atom.weight_kg, Atom.usual_size_eu],
      notes := ["womens_top_eu_numeric"] }
  else if category = Category.trouser ∨ category = Category.bottom ∨
      category = Category.skirt then
    { gender := some Gender.female, category := category,
      system := SizeSystem.eu_numeric, askUsual := true,
      required := [Atom.height_cm, Atom.weight_kg, Atom.usual_size_eu],
      notes := ["womens_bottom_eu_numeric"] }
  else
    { gender := some Gender.female, category := category,
      system := SizeSystem.eu_numeric, askUsual := true,
      required := [Atom.height_cm, Atom.weight_kg, Atom.usual_size_eu],
      notes := ["womens_eu_numeric_default"] }

/-- `schemaForGeneral(category, gender)` from the source. -/
def schemaForGeneral (category : Category) (gender : Option Gender) : Schema :=
  match gender with
  | some Gender.male => schemaForMenswear category
  | some Gender.female => schemaForWomenswear category
  | none =>
      { gender := none, category := category,
        system := SizeSystem.eu_numeric, askUsual := true,
        required := [Atom.height_cm, Atom.weight_kg, Atom.usual_size_eu],
        notes := ["gender_unknown_general_schema"] }

/-! ## Embedded regular-expression scanners

Each regex the engine uses is embedded as a leftmost-match scanner: the
driver tries a match at every position (tracking the previous character for
`\b`), and the per-position matcher follows the regex's alternation /
greediness order. -/

/-- Generic leftmost-match driver: try `tryAt` at every position. -/
def scanFirst (tryAt : Option Char → Str → Option α) : Option Char → Str → Option α
  | prev, [] => tryAt prev []
  | prev, c :: rest =>
      match tryAt prev (c :: rest) with
      | some r => some r
      | none => scanFirst tryAt (some c) rest

/-- Generic existence-of-match driver (for `.test`). -/
def scanAny (tryAt : Option Char → Str → Bool) : Option Char → Str → Bool
  | prev, [] => tryAt prev []
  | prev, c :: rest => tryAt prev (c :: rest) || scanAny tryAt (some c) rest

/-- The alternatives of `/\b(xxxs|xxs|xs|s|m|l|xl|xxl|xxxl)\b/i` in regex
order. -/
def ALPHA_ALTS : List Str :=
  ["xxxs".toList, "xxs".toList, "xs".toList, "s".toList, "m".toList,
   "l".toList, "xl".toList, "xxl".toList, "xxxl".toList]

/-- Match of one alpha alternative at the current position (leading and
trailing `\b`). -/
def tryAlphaAt (prev : Option Char) (l : Str) : Option Str :=
  if wordOpt prev then none
  else ALPHA_ALTS.find? (fun alt => alt.isPrefixOf l && boundaryAfter (l.drop alt.length))

/-- Leftmost match of `/\b(xxxs|xxs|xs|s|m|l|xl|xxl|xxxl)\b/i`. -/
def findAlpha (t : Str) : Option Str := scanFirst tryAlphaAt none t

/-- Two-digit value. -/
def val2 (a b : Char) : Int := (natOfDigits [a, b] : Int)

/-- Three-digit value. -/
def val3 (a b c : Char) : Int := (natOfDigits [a, b, c] : Int)

/-- Match of `/\bw(\d{2})\b/i` at the current position. -/
def tryW1At (prev : Option Char) (l : Str) : Option Int :=
  if wordOpt prev then none
  else
    match l with
    | c :: d1 :: d2 :: rest =>
        if c = 'w' && d1.isDigit && d2.isDigit && boundaryAfter rest then
          some (val2 d1 d2)
        else none
    | _ => none

/-- Leftmost match of `/\bw(\d{2})\b/i` (capture value). -/
def findW1 (t : Str) : Option Int := scanFirst tryW1At none t

/-- Match of `/\b(\d{2})\s*w\b/i` at the current position. -/
def tryW2At (prev : Option Char) (l : Str) : Option Int :=
  if wordOpt prev then none
  else
    match l with
    | d1 :: d2 :: rest =>
        if d1.isDigit && d2.isDigit then
          match rest.dropWhile isWS with
          | c :: r => if c = 'w' && boundaryAfter r then some (val2 d1 d2) else none
          | _ => none
        else none
    | _ => none

/-- Leftmost match of `/\b(\d{2})\s*w\b/i` (capture value). -/
def findW2 (t : Str) : Option Int := scanFirst tryW2At none t

/-- After the digits of `/(\d{2,3})\s*cm\b/`: optional whitespace, then the
unit, then `\b`. -/
def unitTail (unit : Str) (rest : Str) : Bool :=
  let r := rest.dropWhile isWS
  unit.isPrefixOf r && boundaryAfter (r.drop unit.length)

/-- Match of `/(\d{2,3})\s*cm\b/`-style patterns at the current position
(no leading `\b` in the source pattern; `\d{2,3}` is greedy, so three
digits are tried before two). -/
def tryUnitAt (unit : Str) (_ : Option Char) (l : Str) : Option Int :=
  match l with
  | a :: b :: rest =>
      if a.isDigit && b.isDigit then
        match rest with
        | c :: rest2 =>
            if c.isDigit && unitTail unit rest2 then some (val3 a b c)
            else if unitTail unit rest then some (val2 a b)
            else none
        | [] => if unitTail unit [] then some (val2 a b) else none
      else none
  | _ => none

/-- Leftmost match of `/(\d{2,3})\s*cm\b/` (height). -/
def findCm (t : Str) : Option Int := scanFirst (tryUnitAt "cm".toList) none t

/-- Leftmost match of `/(\d{2,3})\s*kg\b/` (weight). -/
def findKg (t : Str) : Option Int := scanFirst (tryUnitAt "kg".toList) none t

/-- After a keyword: optional whitespace, two digits, trailing `\b`
(the `\s*(\d{2})\b` tail of the explicit-size patterns). -/
def digitTail (rest : Str) : Option Int :=
  match rest.dropWhile isWS with
  | d1 :: d2 :: r =>
      if d1.isDigit && d2.isDigit && boundaryAfter r then some (val2 d1 d2) else none
  | _ => none

/-- Match of `/\beu\s*(\d{2})\b/` at the current position. -/
def tryEuAt (prev : Option Char) (l : Str) : Option Int :=
  if wordOpt prev then none
  else if "eu".toList.isPrefixOf l then digitTail (l.drop 2)
  else none

/-- Leftmost match of `/\beu\s*(\d{2})\b/`. -/
def findEu (t : Str) : Option Int := scanFirst tryEuAt none t

/-- Match of `/\bsize\s*(\d{2})\b/` at the current position. -/
def trySizeAt (prev : Option Char) (l : Str) : Option Int :=
  if wordOpt prev then none
  else if "size".toList.isPrefixOf l then digitTail (l.drop 4)
  else none

/-- Leftmost match of `/\bsize\s*(\d{2})\b/`. -/
def findSizeWord (t : Str) : Option Int := scanFirst trySizeAt none t

/-- Match of `/\b(shirt|collar)\s*(\d{2})\b/` at the current position. -/
def tryShirtAt (prev : Option Char) (l : Str) : Option Int :=
  if wordOpt prev then none
  else if "shirt".toList.isPrefixOf l then digitTail (l.drop 5)
  else if "collar".toList.isPrefixOf l then digitTail (l.drop 6)
  else none

/-- Leftmost match of `/\b(shirt|collar)\s*(\d{2})\b/` (capture the
number). -/
def findShirt (t : Str) : Option Int := scanFirst tryShirtAt none t

/-- Match of `/(\bw\d{2}\b|\b\d{2}\s*w\b|\bwaist\s*\d{2}\b)/i` at the
current position (used by `detectSystemFromVariantValues`). -/
def tryWaistPatAt (prev : Option Char) (l : Str) : Bool :=
  if wordOpt prev then false
  else
    (tryW1At prev l).isSome || (tryW2At prev l).isSome ||
    ("waist".toList.isPrefixOf l && (digitTail (l.drop 5)).isSome)

/-- `.test` of the waist pattern over a whole (lowered) string. -/
def hasWaistPattern (t : Str) : Bool := scanAny tryWaistPatAt none t

/-- All matches of `/\b\d{2,3}\b/g`: global scan; each match is a 2–3 digit
run with word boundaries on both sides, and the scan resumes after the
match. -/
def scanNums : Option Char → Str → List Int
  | _, [] => []
  | _, [_] => []
  | prev, [a, b] =>
      if !wordOpt prev && a.isDigit && b.isDigit then [val2 a b] else []
  | prev, a :: b :: c :: r =>
      if !wordOpt prev && a.isDigit then
        if b.isDigit && c.isDigit && boundaryAfter r then
          val3 a b c :: scanNums (some c) r
        else if b.isDigit && !isWordChar c then
          val2 a b :: scanNums (some b) (c :: r)
        else scanNums (some a) (b :: c :: r)
      else scanNums (some a) (b :: c :: r)

/-! ## Product-based schema detection -/

/-- `detectSystemFromVariantValues(values)` from the source: the per-value
loop only accumulates four existence flags, embedded with `List.any`.  The
waist regex is tested with `/i` on the raw value, i.e. on its lowering. -/
def detectSystemFromVariantValues (values : List Str) : SizeSystem :=
  let hasAlpha := values.any (fun v => (normalizeAlphaSize (lowerL v)).isSome)
  let hasWaist := values.any (fun v => hasWaistPattern (lowerL v))
  let hasCollar := values.any (fun v =>
    match parseIntSafe (lowerL v) with
    | some n => decide (37 ≤ n) && decide (n ≤ 46)
    | none => false)
  let hasEuNumeric := values.any (fun v =>
    match parseIntSafe (lowerL v) with
    | some n => decide (34 ≤ n) && decide (n ≤ 60)
    | none => false)
  if hasWaist then SizeSystem.waist_inch
  else if hasCollar && !hasAlpha then SizeSystem.shirt_collar_eu
  else if hasAlpha then SizeSystem.alpha
  else if hasEuNumeric then SizeSystem.eu_numeric
  else SizeSystem.eu_numeric

/-- The size-option name matchers `['size', /taglia/i, /talla/i, /größe/i,
/taille/i]` (all are substring tests on the lowered option name). -/
def sizeNameMatchers : List Str :=
  ["size".toList, "taglia".toList, "talla".toList, "größe".toList, "taille".toList]

/-- Insertion into an ascending list (the lists sorted here are
duplicate-free, so the JS comparator sort is plain ascending order). -/
def insertAsc (n : Int) : List Int → List Int
  | [] => [n]
  | x :: xs => if n ≤ x then n :: x :: xs else x :: insertAsc n xs

def sortAsc (l : List Int) : List Int := l.foldr insertAsc []

/-- Insertion sorted by `alphaToIndex` rank (JS coerces a `null` rank to
`0` in the comparator). -/
def rankOf (s : Str) : Int := ((alphaToIndex s).getD 0 : Nat)

def insertRank (s : Str) : List Str → List Str
  | [] => [s]
  | x :: xs => if rankOf s ≤ rankOf x then s :: x :: xs else x :: insertRank s xs

def sortRank (l : List Str) : List Str := l.foldr insertRank []

/-- The waist-value parse of `extractAvailableSizes`: `/\bw(\d{2})\b/` on
the lowered value, else `/\b(\d{2})\s*w\b/`. -/
def waistValOf (v : Str) : Option Int :=
  match findW1 (lowerL v) with
  | some n => some n
  | none => findW2 (lowerL v)

/-- `extractAvailableSizes(product, schema)` from the source (the `schema`
argument is unused in its body). -/
def extractAvailableSizes (p : Option Product) (_schema : Schema) : Avail :=
  match p with
  | none => {}
  | some prod =>
      let idxSize := getOptionIndexByName (some prod) sizeNameMatchers
      let sizeValues := collectOptionValues (some prod) idxSize
      { raw := sizeValues,
        numeric := sortAsc (uniqL (sizeValues.filterMap (fun v => parseIntSafe (lowerL v)))),
        alphaList := sortRank (uniqL (sizeValues.filterMap normalizeAlphaSize)),
        waist := sortAsc (uniqL (sizeValues.filterMap waistValOf)) }

/-- `detectSizeSchemaFromProduct(product)` from the source: base schema
from gender/category, refined by the detected system of the size-option
values, with the men's-shirt tailoring-band override, then the
availability snapshot is attached. -/
def detectSizeSchemaFromProduct (p : Option Product) : Option Schema :=
  match p with
  | none => none
  | some prod =>
      let gender := inferGenderFromProduct (some prod)
      let category := inferCategoryFromProduct (some prod)
      let schema := schemaForGeneral category gender
      let idxSize := getOptionIndexByName (some prod) sizeNameMatchers
      let sizeValues := collectOptionValues (some prod) idxSize
      let schema :=
        if sizeValues ≠ [] then
          let detectedSystem := detectSystemFromVariantValues sizeValues
          if schema.category = Category.shirt ∧
              detectedSystem = SizeSystem.shirt_collar_eu then
            { schema with
              system := SizeSystem.shirt_collar_eu
              required := [Atom.height_cm, Atom.weight_kg, Atom.shirt_size_eu]
              askUsual := true
              notes := schema.notes ++ ["product_forces_collar_sizing"] }
          else if detectedSystem = SizeSystem.alpha then
            { schema with
              system := SizeSystem.alpha
              required := [Atom.height_cm, Atom.weight_kg, Atom.alpha_size]
              askUsual := true
              notes := schema.notes ++ ["product_uses_alpha_sizing"] }
          else if detectedSystem = SizeSystem.waist_inch then
            { schema with
              system := SizeSystem.waist_inch
              required := [Atom.height_cm, Atom.weight_kg, Atom.waist_inch]
              askUsual := true
              notes := schema.notes ++ ["product_uses_waist_sizing"] }
          else
            let s1 := { schema with system := SizeSystem.eu_numeric }
            if s1.gender = some Gender.male ∧ s1.category = Category.shirt then
              let hasTailoring := sizeValues.any (fun v =>
                match parseIntSafe (lowerL v) with
                | some n => decide (44 ≤ n) && decide (n ≤ 60)
                | none => false)
              if !hasTailoring then
                { s1 with
                  system := SizeSystem.shirt_collar_eu
                  required := [Atom.height_cm, Atom.weight_kg, Atom.shirt_size_eu]
                  notes := s1.notes ++ ["mens_shirt_defaulted_to_collar"] }
              else s1
            else
              { s1 with
                required := [Atom.height_cm, Atom.weight_kg, Atom.usual_size_eu]
                notes := s1.notes ++ ["product_uses_eu_numeric"] }
        else { schema with notes := schema.notes ++ ["no_product_size_option_detected"] }
      some { schema with available := some (extractAvailableSizes (some prod) schema) }

/-! ## User input parsing -/

/-- The record returned by `parseUserInput`. -/
structure ParseOut where
  height_cm : Option Int := none
  weight_kg : Option Int := none
  usual_size_eu : Option Int := none
  shirt_size_eu : Option Int := none
  alpha_size : Option Str := none
  waist_inch : Option Int := none
  ambiguous_numbers : List Int := []
deriving DecidableEq, Repr

/-- The all-null record `parseUserInput` starts from (and returns for empty
input). -/
def emptyParseOut : ParseOut := {}

/-- `schema && schema.system === sys`. -/
def sysIs (schema : Option Schema) (sys : SizeSystem) : Bool :=
  match schema with
  | some s => s.system = sys
  | none => false

/-- One step of the bare-number loop of `parseUserInput` (state = record so
far plus the `used` multiset).  The branch order is the source's `continue`
chain: already-used skip, height 140–210, collar 37–46, waist 24–48,
EU 34–60 (the size branches only under the matching schema system), weight
40–180, else `ambiguous_numbers`. -/
def bareStep (schema : Option Schema) : ParseOut × List Int → Int → ParseOut × List Int :=
  fun (st : ParseOut × List Int) (n : Int) =>
    let out := st.1
    let used := st.2
    if 0 < used.count n then (out, used.erase n)
    else if truthyN out.height_cm = false ∧ 140 ≤ n ∧ n ≤ 210 then
      ({ out with height_cm := some n }, used)
    else if sysIs schema SizeSystem.shirt_collar_eu = true ∧
        truthyN out.shirt_size_eu = false ∧ 37 ≤ n ∧ n ≤ 46 then
      ({ out with shirt_size_eu := some n }, used)
    else if sysIs schema SizeSystem.waist_inch = true ∧
        truthyN out.waist_inch = false ∧ 24 ≤ n ∧ n ≤ 48 then
      ({ out with waist_inch := some n }, used)
    else if sysIs schema SizeSystem.eu_numeric = true ∧
        truthyN out.usual_size_eu = false ∧ 34 ≤ n ∧ n ≤ 60 then
      ({ out with usual_size_eu := some n }, used)
    else if truthyN out.weight_kg = false ∧ 40 ≤ n ∧ n ≤ 180 then
      ({ out with weight_kg := some n }, used)
    else ({ out with ambiguous_numbers := out.ambiguous_numbers ++ [n] }, used)

/-- The `used` multiset built before the bare-number loop (one entry per
truthy captured field, in source order; counts model the JS counter map). -/
def usedInit (out : ParseOut) : List Int :=
  (match out.height_cm with | some n => if n ≠ 0 then [n] else [] | none => []) ++
  (match out.weight_kg with | some n => if n ≠ 0 then [n] else [] | none => []) ++
  (match out.usual_size_eu with | some n => if n ≠ 0 then [n] else [] | none => []) ++
  (match out.shirt_size_eu with | some n => if n ≠ 0 then [n] else [] | none => []) ++
  (match out.waist_inch with | some n => if n ≠ 0 then [n] else [] | none => [])

/-- Everything `parseUserInput` does after lowering a non-empty text and
before the shirt-collar reconciliation: regex captures, then the
bare-number loop. -/
def parseMain (t : Str) (schema : Option Schema) : ParseOut :=
  let out0 : ParseOut := {}
  let out1 := { out0 with alpha_size := (findAlpha t).bind normalizeAlphaSize }
  let out2 := { out1 with
    waist_inch := match findW1 t with
      | some n => some n
      | none => findW2 t }
  let out3 := { out2 with height_cm := findCm t }
  let out4 := { out3 with weight_kg := findKg t }
  let out5 := { out4 with usual_size_eu := findEu t }
  let out6 :=
    if truthyN out5.usual_size_eu = false then
      { out5 with usual_size_eu := match findSizeWord t with
          | some n => some n
          | none => out5.usual_size_eu }
    else out5
  let out7 := { out6 with shirt_size_eu := findShirt t }
  let nums := scanNums none t
  (nums.foldl (bareStep schema) (out7, usedInit out7)).1

/-- The final reconciliation of `parseUserInput`: under a shirt-collar
schema, a captured EU value in the collar band 37–46 is reassigned to
`shirt_size_eu` when no shirt size was captured. -/
def reconcileShirt (schema : Option Schema) (out : ParseOut) : ParseOut :=
  if sysIs schema SizeSystem.shirt_collar_eu = true then
    match out.usual_size_eu with
    | some v =>
        if truthyN out.shirt_size_eu = false ∧ v ≠ 0 ∧ 37 ≤ v ∧ v ≤ 46 then
          { out with
            shirt_size_eu := some v
            usual_size_eu := none }
        else out
    | none => out
  else out

/-- `parseUserInput(text, schema)` from the source.  A JS `null`/`undefined`
text is `none` (`toStr` maps it to the empty string); an empty lowered text
returns the all-null record before any matching. -/
def parseUserInput (text : Option Str) (schema : Option Schema) : ParseOut :=
  let t := lowerL (match text with | some s => s | none => [])
  if t = [] then emptyParseOut
  else reconcileShirt schema (parseMain t schema)

/-! ## Recommendation engine -/

/-- `resolveLength(height_cm, gender)` from the source (a falsy height,
i.e. `null` or `0`, yields `standard`). -/
def resolveLength (height_cm : Option Int) (gender : Option Gender) : LengthCat :=
  if truthyN height_cm = false then LengthCat.standard
  else
    let h := height_cm.getD 0
    match gender with
    | some Gender.male =>
        if h < 170 then LengthCat.short
        else if h ≤ 184 then LengthCat.standard
        else LengthCat.long
    | some Gender.female =>
        if h < 162 then LengthCat.short
        else if h ≤ 172 then LengthCat.standard
        else LengthCat.long
    | none =>
        if h < 166 then LengthCat.short
        else if h ≤ 180 then LengthCat.standard
        else LengthCat.long

/-- `deriveEuSizeFromProportions(height_cm, weight_kg, gender)` from the
source.  The JS float `frameIndex = weight / (height/100)` is modelled
exactly over `ℚ`. -/
def deriveEuSizeFromProportions (height_cm weight_kg : Option Int)
    (gender : Option Gender) : Option Int :=
  if truthyN height_cm = false ∨ truthyN weight_kg = false then none
  else
    let h := height_cm.getD 0
    let w := weight_kg.getD 0
    let frameIndex : ℚ := (w : ℚ) / ((h : ℚ) / 100)
    match gender with
    | some Gender.male =>
        let baseM : Int :=
          if frameIndex < 43 then 46
          else if frameIndex < 47 then 48
          else if frameIndex < 51 then 50
          else if frameIndex < 55 then 52
          else 54
        let baseM := if h ≥ 195 then baseM + 2 else baseM
        let baseM := if h ≥ 205 then baseM + 2 else baseM
        some (clampI baseM 44 60)
    | some Gender.female =>
        let baseW : Int :=
          if frameIndex < 34 then 34
          else if frameIndex < 38 then 36
          else if frameIndex < 42 then 38
          else if frameIndex < 46 then 40
          else if frameIndex < 50 then 42
          else if frameIndex < 54 then 44
          else 46
        let baseW := if h ≥ 175 then baseW + 2 else baseW
        let baseW := if h ≥ 182 then baseW + 2 else baseW
        some (clampI baseW 32 48)
    | none =>
        let neutral : Int :=
          if frameIndex < 38 then 36
          else if frameIndex < 44 then 40
          else if frameIndex < 50 then 44
          else 48
        some (clampI neutral 34 58)

/-- `deriveShirtCollarFromProportions(height_cm, weight_kg)` from the
source. -/
def deriveShirtCollarFromProportions (height_cm weight_kg : Option Int) : Option Int :=
  if truthyN height_cm = false ∨ truthyN weight_kg = false then none
  else
    let h := height_cm.getD 0
    let w := weight_kg.getD 0
    let collar : Int :=
      if w < 65 then 38
      else if w < 72 then 39
      else if w < 80 then 40
      else if w < 88 then 41
      else if w < 96 then 42
      else 43
    let collar := if h ≥ 190 then collar + 1 else collar
    let collar := if h ≤ 168 then collar - 1 else collar
    some (clampI collar 37 46)

/-- `deriveAlphaFromProportions(height_cm, weight_kg, gender)` from the
source. -/
def deriveAlphaFromProportions (height_cm weight_kg : Option Int)
    (gender : Option Gender) : Option Str :=
  if truthyN height_cm = false ∨ truthyN weight_kg = false then none
  else
    let h := height_cm.getD 0
    let w := weight_kg.getD 0
    let frameIndex : ℚ := (w : ℚ) / ((h : ℚ) / 100)
    let idx : Nat :=
      match gender with
      | some Gender.female =>
          if frameIndex < 30 then 1
          else if frameIndex < 34 then 2
          else if frameIndex < 38 then 3
          else if frameIndex < 42 then 4
          else 5
      | _ =>
          if frameIndex < 40 then 2
          else if frameIndex < 46 then 3
          else if frameIndex < 52 then 4
          else if frameIndex < 58 then 5
          else 6
    some (upperL (ALPHA_ORDER.getD idx "m".toList))

/-- `deriveWaistFromProportions(height_cm, weight_kg, gender)` from the
source. -/
def deriveWaistFromProportions (height_cm weight_kg : Option Int)
    (gender : Option Gender) : Option Int :=
  if truthyN height_cm = false ∨ truthyN weight_kg = false then none
  else
    let h := height_cm.getD 0
    let w := weight_kg.getD 0
    let waist : Int :=
      match gender with
      | some Gender.female =>
          if w < 55 then 26
          else if w < 62 then 27
          else if w < 70 then 28
          else if w < 78 then 30
          else if w < 86 then 32
          else 34
      | _ =>
          if w < 65 then 29
          else if w < 73 then 30
          else if w < 82 then 32
          else if w < 92 then 34
          else if w < 104 then 36
          else 38
    let waist := if h ≥ 190 then waist + 1 else waist
    let waist := if h ≤ 168 then waist - 1 else waist
    some (clampI waist 24 48)

/-- `closestNumeric(target, list)` inner loop: running best with strict
improvement (`d < bestDiff`), so ties keep the earlier candidate. -/
def closestNumericAux (target : Int) : Int → Int → List Int → Int
  | best, _, [] => best
  | best, bestDiff, x :: xs =>
      if |x - target| < bestDiff then closestNumericAux target x |x - target| xs
      else closestNumericAux target best bestDiff xs

/-- `closestNumeric(target, list)` from the source (the `isNum`/empty-list
guards live at the call sites in this embedding, where the target is a
known number). -/
def closestNumeric (target : Int) (list : List Int) : Int :=
  match list with
  | [] => target
  | x :: xs => closestNumericAux target x |x - target| xs

/-- Rank used by `closestAlpha` (JS coerces a `null` `alphaToIndex` to `0`
in the subtraction). -/
def closestAlphaAux (t : Int) : Str → Int → List Str → Str
  | best, _, [] => best
  | best, bestDiff, x :: xs =>
      if |rankOf x - t| < bestDiff then closestAlphaAux t x |rankOf x - t| xs
      else closestAlphaAux t best bestDiff xs

/-- `closestAlpha(targetAlpha, list)` from the source. -/
def closestAlpha (targetAlpha : Str) (list : List Str) : Str :=
  match list with
  | [] => targetAlpha
  | x :: xs =>
      match alphaToIndex targetAlpha with
      | none => targetAlpha
      | some t => closestAlphaAux (t : Nat) x |rankOf x - (t : Nat)| xs

/-- The recommendation record built by `recommend`. -/
structure Rec where
  system : SizeSystem
  gender : Option Gender
  category : Category
  length : LengthCat
  size_eu : Option Int := none
  shirt_size_eu : Option Int := none
  alpha_size : Option Str := none
  waist_inch : Option Int := none
  used_usual_as_anchor : Bool := false
deriving DecidableEq, Repr

/-- `clampRecommendationToProduct(schema, recommendation)` from the source:
four sequential per-system conditional snaps (no-ops when the schema has no
availability, the list is empty, or the field is not a number). -/
def clampRecommendationToProduct (schema : Option Schema) (r : Rec) : Rec :=
  match schema with
  | none => r
  | some s =>
      match s.available with
      | none => r
      | some avail =>
          let r :=
            if s.system = SizeSystem.eu_numeric then
              match r.size_eu with
              | some v =>
                  if avail.numeric ≠ [] then
                    { r with size_eu := some (closestNumeric v avail.numeric) }
                  else r
              | none => r
            else r
          let r :=
            if s.system = SizeSystem.shirt_collar_eu then
              match r.shirt_size_eu with
              | some v =>
                  if avail.numeric ≠ [] then
                    { r with shirt_size_eu := some (closestNumeric v avail.numeric) }
                  else r
              | none => r
            else r
          let r :=
            if s.system = SizeSystem.alpha then
              match r.alpha_size with
              | some a =>
                  if a ≠ [] ∧ avail.alphaList ≠ [] then
                    { r with alpha_size := some (closestAlpha a avail.alphaList) }
                  else r
              | none => r
            else r
          let r :=
            if s.system = SizeSystem.waist_inch then
              match r.waist_inch with
              | some v =>
                  if avail.waist ≠ [] then
                    { r with waist_inch := some (closestNumeric v avail.waist) }
                  else r
              | none => r
            else r
          r

/-- The user-measurement record consumed by `recommend`. -/
structure User where
  height_cm : Option Int := none
  weight_kg : Option Int := none
  usual_size_eu : Option Int := none
  shirt_size_eu : Option Int := none
  alpha_size : Option Str := none
  waist_inch : Option Int := none
deriving DecidableEq, Repr

/-- `recommend(schema, user)` from the source: per active system take the
user's truthy anchor (marking `used_usual_as_anchor`) else derive from
proportions, resolve length, then clamp to availability. -/
def recommend (schema : Option Schema) (user : Option User) : Rec :=
  let u := user.getD {}
  let s := schema.getD (schemaForGeneral Category.unknown none)
  let rec0 : Rec :=
    { system := s.system
      gender := s.gender
      category := s.category
      length := resolveLength u.height_cm s.gender }
  let rec1 :=
    if s.system = SizeSystem.eu_numeric then
      if truthyN u.usual_size_eu = true then
        { rec0 with
          size_eu := u.usual_size_eu
          used_usual_as_anchor := true }
      else
        { rec0 with size_eu := deriveEuSizeFromProportions u.height_cm u.weight_kg s.gender }
    else rec0
  let rec2 :=
    if s.system = SizeSystem.shirt_collar_eu then
      if truthyN u.shirt_size_eu = true then
        { rec1 with
          shirt_size_eu := u.shirt_size_eu
          used_usual_as_anchor := true }
      else
        { rec1 with
          shirt_size_eu := deriveShirtCollarFromProportions u.height_cm u.weight_kg }
    else rec1
  let rec3 :=
    if s.system = SizeSystem.alpha then
      if truthyS u.alpha_size = true then
        { rec2 with
          alpha_size := match u.alpha_size with
            | some a => match normalizeAlphaSize a with
              | some na => some na
              | none => some a
            | none => none
          used_usual_as_anchor := true }
      else
        { rec2 with
          alpha_size := deriveAlphaFromProportions u.height_cm u.weight_kg s.gender }
    else rec2
  let rec4 :=
    if s.system = SizeSystem.waist_inch then
      if truthyN u.waist_inch = true then
        { rec3 with
          waist_inch := u.waist_inch
          used_usual_as_anchor := true }
      else
        { rec3 with
          waist_inch := deriveWaistFromProportions u.height_cm u.weight_kg s.gender }
    else rec3
  clampRecommendationToProduct (some s) rec4

/-- The context object consumed by `recommendForProduct`. -/
structure RFPCtx where
  product : Option Product := none
  user : Option User := none
  gender : Option Gender := none
deriving DecidableEq, Repr

/-- The flat result object returned by `recommendForProduct`. -/
structure FlatRec where
  system : SizeSystem
  category : Category
  gender : Option Gender
  size_eu : Option Int
  shirt_size_eu : Option Int
  alpha_size : Option Str
  waist_inch : Option Int
  length : LengthCat
  used_usual_as_anchor : Bool
deriving DecidableEq, Repr

/-- `user.x || null`: a falsy (zero / empty) measurement is normalized to
`null`. -/
def normTruthyN (o : Option Int) : Option Int := if truthyN o = true then o else none

def normTruthyS (o : Option Str) : Option Str := if truthyS o = true then o else none

/-- `recommendForProduct(ctx)` from the source: `null` when no context or
no user object; otherwise detect a product schema (falling back to the
general category/gender schema), normalize the user's fields, recommend,
and flatten. -/
def recommendForProduct (ctx : Option RFPCtx) : Option FlatRec :=
  match ctx with
  | none => none
  | some c =>
      match c.user with
      | none => none
      | some u =>
          let product := c.product
          let schema1 : Option Schema :=
            match product with
            | some _ => detectSizeSchemaFromProduct product
            | none => none
          let schema2 : Option Schema :=
            match schema1 with
            | some s => some s
            | none =>
                some (schemaForGeneral (inferCategoryFromProduct product)
                  (match c.gender with
                   | some g => some g
                   | none => inferGenderFromProduct product))
          match schema2 with
          | none => none
          | some schema =>
              let normalizedUser : User :=
                { height_cm := normTruthyN u.height_cm
                  weight_kg := normTruthyN u.weight_kg
                  usual_size_eu := normTruthyN u.usual_size_eu
                  shirt_size_eu := normTruthyN u.shirt_size_eu
                  alpha_size := normTruthyS u.alpha_size
                  waist_inch := normTruthyN u.waist_inch }
              let r := recommend (some schema) (some normalizedUser)
              some
                { system := r.system
                  category := r.category
                  gender := r.gender
                  size_eu := normTruthyN r.size_eu
                  shirt_size_eu := normTruthyN r.shirt_size_eu
                  alpha_size := normTruthyS r.alpha_size
                  waist_inch := normTruthyN r.waist_inch
                  length := r.length
                  used_usual_as_anchor := r.used_usual_as_anchor }

/-! ## Theorems -/

/-- C9: `resolveLength` maps height to a length category by gender-specific
breakpoints — male: below 170 short, up to and including 184 standard, else
long; female: below 162 short, up to 172 standard; unknown gender: below
166 short, up to 180 standard — and returns `standard` whenever height is
absent; in particular `resolveLength(169,'male') = 'short'` and
`resolveLength(170,'male') = 'standard'`. -/
theorem resolveLength_spec :
    (∀ g : Option Gender, resolveLength none g = LengthCat.standard) ∧
    (∀ h : Int, h ≠ 0 →
      ((h < 170 → resolveLength (some h) (some Gender.male) = LengthCat.short) ∧
       (170 ≤ h → h ≤ 184 → resolveLength (some h) (some Gender.male) = LengthCat.standard) ∧
       (184 < h → resolveLength (some h) (some Gender.male) = LengthCat.long) ∧
       (h < 162 → resolveLength (some h) (some Gender.female) = LengthCat.short) ∧
       (162 ≤ h → h ≤ 172 → resolveLength (some h) (some Gender.female) = LengthCat.standard) ∧
       (172 < h → resolveLength (some h) (some Gender.female) = LengthCat.long) ∧
       (h < 166 → resolveLength (some h) none = LengthCat.short) ∧
       (166 ≤ h → h ≤ 180 → resolveLength (some h) none = LengthCat.standard) ∧
       (180 < h → resolveLength (some h) none = LengthCat.long))) ∧
    resolveLength (some 169) (some Gender.male) = LengthCat.short ∧
    resolveLength (some 170) (some Gender.male) = LengthCat.standard := by
  refine ⟨fun g => rfl, fun h h0 => ?_, by decide, by decide⟩
  have ht : truthyN (some h) = true := by simp [truthyN, h0]
  refine ⟨?_, ?_, ?_, ?_, ?_, ?_, ?_, ?_, ?_⟩ <;>
    · intros
      simp only [resolveLength, ht, Bool.true_eq_false, if_false, Option.getD_some]
      split_ifs <;> first | rfl | omega

/-- C9 witness: the characterization applied at the concrete boundary
inputs 169 and 170 for a male schema. -/
theorem resolveLength_spec_witness :
    resolveLength (some 169) (some Gender.male) = LengthCat.short ∧
    resolveLength (some 170) (some Gender.male) = LengthCat.standard :=
  ⟨(resolveLength_spec.2.1 169 (by decide)).1 (by decide),
   ((resolveLength_spec.2.1 170 (by decide)).2.1 (by decide) (by decide))⟩

/-- C7: `recommendForProduct` returns `null` exactly when no context or no
user object is supplied; any context with a user object (with or without
product data, whatever the measurement fields) yields a non-null flat
result. -/
theorem recommendForProduct_null_iff :
    recommendForProduct none = none ∧
    ∀ c : RFPCtx, (recommendForProduct (some c)).isNone = c.user.isNone := by
  refine ⟨rfl, fun c => ?_⟩
  cases hu : c.user with
  | none => simp [recommendForProduct, hu]
  | some u =>
      cases hp : c.product with
      | none => simp [recommendForProduct, hu, hp]
      | some p =>
          simp only [recommendForProduct, hu, hp]
          cases hs : detectSizeSchemaFromProduct (some p) <;> simp

/-- C2 counterexample: with the general EU schema and an entirely empty
user record, `recommend` returns a recommendation in which all four size
fields are null — not exactly one non-null size field. -/
theorem recommend_counterexample_all_null :
    (recommend (some (schemaForGeneral Category.unknown none)) (some {})).size_eu = none ∧
    (recommend (some (schemaForGeneral Category.unknown none)) (some {})).shirt_size_eu = none ∧
    (recommend (some (schemaForGeneral Category.unknown none)) (some {})).alpha_size = none ∧
    (recommend (some (schemaForGeneral Category.unknown none)) (some {})).waist_inch = none := by
  decide

/-- The availability clamp never touches `size_eu` unless the system is
EU-numeric. -/
lemma clamp_size_of_ne (s : Schema) (r : Rec) (h : s.system ≠ SizeSystem.eu_numeric) :
    (clampRecommendationToProduct (some s) r).size_eu = r.size_eu := by
  obtain ⟨g, cat, sys, ask, req, nts, av⟩ := s
  simp only at h
  unfold clampRecommendationToProduct
  cases av with
  | none => rfl
  | some avail =>
      simp only [if_neg h]
      repeat' split
      all_goals rfl

/-- The availability clamp never touches `shirt_size_eu` unless the system
is shirt-collar. -/
lemma clamp_shirt_of_ne (s : Schema) (r : Rec) (h : s.system ≠ SizeSystem.shirt_collar_eu) :
    (clampRecommendationToProduct (some s) r).shirt_size_eu = r.shirt_size_eu := by
  obtain ⟨g, cat, sys, ask, req, nts, av⟩ := s
  simp only at h
  unfold clampRecommendationToProduct
  cases av with
  | none => rfl
  | some avail =>
      simp only [if_neg h]
      repeat' split
      all_goals rfl

/-- The availability clamp never touches `alpha_size` unless the system is
alpha. -/
lemma clamp_alpha_of_ne (s : Schema) (r : Rec) (h : s.system ≠ SizeSystem.alpha) :
    (clampRecommendationToProduct (some s) r).alpha_size = r.alpha_size := by
  obtain ⟨g, cat, sys, ask, req, nts, av⟩ := s
  simp only at h
  unfold clampRecommendationToProduct
  cases av with
  | none => rfl
  | some avail =>
      simp only [if_neg h]
      repeat' split
      all_goals rfl

/-- The availability clamp never touches `waist_inch` unless the system is
waist-inch. -/
lemma clamp_waist_of_ne (s : Schema) (r : Rec) (h : s.system ≠ SizeSystem.waist_inch) :
    (clampRecommendationToProduct (some s) r).waist_inch = r.waist_inch := by
  obtain ⟨g, cat, sys, ask, req, nts, av⟩ := s
  simp only at h
  unfold clampRecommendationToProduct
  cases av with
  | none => rfl
  | some avail =>
      simp only [if_neg h]
      repeat' split
      all_goals rfl

/-- C2 (amended): for every schema and user record, at most one size field
of the returned Recommendation is non-null — the one selected by the
effective schema's `system`; the other three size fields are always
null. -/
theorem recommend_at_most_one_size_field (schema : Option Schema) (user : Option User) :
    ((schema.getD (schemaForGeneral Category.unknown none)).system ≠ SizeSystem.eu_numeric →
      (recommend schema user).size_eu = none) ∧
    ((schema.getD (schemaForGeneral Category.unknown none)).system ≠ SizeSystem.shirt_collar_eu →
      (recommend schema user).shirt_size_eu = none) ∧
    ((schema.getD (schemaForGeneral Category.unknown none)).system ≠ SizeSystem.alpha →
      (recommend schema user).alpha_size = none) ∧
    ((schema.getD (schemaForGeneral Category.unknown none)).system ≠ SizeSystem.waist_inch →
      (recommend schema user).waist_inch = none) := by
  refine ⟨fun hne => ?_, fun hne => ?_, fun hne => ?_, fun hne => ?_⟩
  · simp only [recommend]
    rw [clamp_size_of_ne _ _ hne]
    simp only [ne_eq, hne, if_false]
    repeat' split
    all_goals rfl
  · simp only [recommend]
    rw [clamp_shirt_of_ne _ _ hne]
    simp only [ne_eq, hne, if_false]
    repeat' split
    all_goals rfl
  · simp only [recommend]
    rw [clamp_alpha_of_ne _ _ hne]
    simp only [ne_eq, hne, if_false]
    repeat' split
    all_goals rfl
  · simp only [recommend]
    rw [clamp_waist_of_ne _ _ hne]
    simp only [ne_eq, hne, if_false]
    repeat' split
    all_goals rfl

/-- C2 witness: the amended invariant applied at a concrete collar schema
and a concrete user, showing the three non-collar size fields null. -/
theorem recommend_at_most_one_size_field_witness :
    (recommend (some (schemaForMenswear Category.shirt))
      (some { height_cm := some 180, weight_kg := some 75 })).size_eu = none ∧
    (recommend (some (schemaForMenswear Category.shirt))
      (some { height_cm := some 180, weight_kg := some 75 })).alpha_size = none ∧
    (recommend (some (schemaForMenswear Category.shirt))
      (some { height_cm := some 180, weight_kg := some 75 })).waist_inch = none :=
  ⟨(recommend_at_most_one_size_field (some (schemaForMenswear Category.shirt))
      (some { height_cm := some 180, weight_kg := some 75 })).1 (by decide),
   (recommend_at_most_one_size_field (some (schemaForMenswear Category.shirt))
      (some { height_cm := some 180, weight_kg := some 75 })).2.2.1 (by decide),
   (recommend_at_most_one_size_field (some (schemaForMenswear Category.shirt))
      (some { height_cm := some 180, weight_kg := some 75 })).2.2.2 (by decide)⟩

/-- Running-minimum invariant of the `closestNumeric` loop: the result is
the first element (or the initial best) attaining the minimum distance. -/
lemma closestNumericAux_spec (t : Int) :
    ∀ (xs : List Int) (best : Int),
      (closestNumericAux t best |best - t| xs = best ∧
        ∀ y ∈ xs, |best - t| ≤ |y - t|) ∨
      (∃ (i : Nat) (hi : i < xs.length),
        xs.get ⟨i, hi⟩ = closestNumericAux t best |best - t| xs ∧
        |closestNumericAux t best |best - t| xs - t| < |best - t| ∧
        (∀ (j : Nat) (hj : j < xs.length),
          |closestNumericAux t best |best - t| xs - t| ≤ |xs.get ⟨j, hj⟩ - t|) ∧
        (∀ (j : Nat) (hj : j < xs.length), j < i →
          |closestNumericAux t best |best - t| xs - t| < |xs.get ⟨j, hj⟩ - t|)) := by
  intro xs
  induction xs with
  | nil => intro best; left; exact ⟨rfl, by simp⟩
  | cons x xs ih =>
      intro best
      by_cases h : |x - t| < |best - t|
      · have hstep : closestNumericAux t best |best - t| (x :: xs) =
            closestNumericAux t x |x - t| xs := by
          simp [closestNumericAux, h]
        rcases ih x with ⟨heq, hall⟩ | ⟨i, hi, hget, hlt, hle, hstrict⟩
        · right
          refine ⟨0, by simp, ?_, ?_, ?_, ?_⟩
          · simp [hstep, heq]
          · rw [hstep, heq]; exact h
          · intro j hj
            rw [hstep, heq]
            cases j with
            | zero => simp
            | succ j =>
                have hj' : j < xs.length := by simpa using hj
                have := hall (xs.get ⟨j, hj'⟩) (xs.get_mem _ _)
                simpa using this
          · intro j hj hj0; omega
        · right
          refine ⟨i + 1, by simpa using Nat.succ_lt_succ hi, ?_, ?_, ?_, ?_⟩
          · rw [hstep]; simpa using hget
          · rw [hstep]; exact lt_trans hlt h
          · intro j hj
            rw [hstep]
            cases j with
            | zero => simpa using le_of_lt (lt_of_lt_of_le hlt (le_refl _))
            | succ j =>
                have hj' : j < xs.length := by simpa using hj
                simpa using hle j hj'
          · intro j hj hji
            rw [hstep]
            cases j with
            | zero => simpa using hlt
            | succ j =>
                have hj' : j < xs.length := by simpa using hj
                simpa using hstrict j hj' (by omega)
      · have hb : |best - t| ≤ |x - t| := not_lt.mp h
        have hstep : closestNumericAux t best |best - t| (x :: xs) =
            closestNumericAux t best |best - t| xs := by
          simp [closestNumericAux, h]
        rcases ih best with ⟨heq, hall⟩ | ⟨i, hi, hget, hlt, hle, hstrict⟩
        · left
          refine ⟨by rw [hstep, heq], ?_⟩
          intro y hy
          rcases List.mem_cons.mp hy with rfl | hy'
          · exact hb
          · exact hall y hy'
        · right
          refine ⟨i + 1, by simpa using Nat.succ_lt_succ hi, ?_, ?_, ?_, ?_⟩
          · rw [hstep]; simpa using hget
          · rw [hstep]; exact hlt
          · intro j hj
            rw [hstep]
            cases j with
            | zero => simpa using le_trans (le_of_lt hlt) hb
            | succ j =>
                have hj' : j < xs.length := by simpa using hj
                simpa using hle j hj'
          · intro j hj hji
            rw [hstep]
            cases j with
            | zero => simpa using lt_of_lt_of_le hlt hb
            | succ j =>
                have hj' : j < xs.length := by simpa using hj
                simpa using hstrict j hj' (by omega)


/-- Running-minimum invariant of the `closestAlpha` loop (rank
distance). -/
lemma closestAlphaAux_spec (t : Int) :
    ∀ (xs : List Str) (best : Str),
      (closestAlphaAux t best |rankOf best - t| xs = best ∧
        ∀ y ∈ xs, |rankOf best - t| ≤ |rankOf y - t|) ∨
      (∃ (i : Nat) (hi : i < xs.length),
        xs.get ⟨i, hi⟩ = closestAlphaAux t best |rankOf best - t| xs ∧
        |rankOf (closestAlphaAux t best |rankOf best - t| xs) - t| < |rankOf best - t| ∧
        (∀ (j : Nat) (hj : j < xs.length),
          |rankOf (closestAlphaAux t best |rankOf best - t| xs) - t| ≤
            |rankOf (xs.get ⟨j, hj⟩) - t|) ∧
        (∀ (j : Nat) (hj : j < xs.length), j < i →
          |rankOf (closestAlphaAux t best |rankOf best - t| xs) - t| <
            |rankOf (xs.get ⟨j, hj⟩) - t|)) := by
  intro xs
  induction xs with
  | nil => intro best; left; exact ⟨rfl, by simp⟩
  | cons x xs ih =>
      intro best
      by_cases h : |rankOf x - t| < |rankOf best - t|
      · have hstep : closestAlphaAux t best |rankOf best - t| (x :: xs) =
            closestAlphaAux t x |rankOf x - t| xs := by
          simp [closestAlphaAux, h]
        rcases ih x with ⟨heq, hall⟩ | ⟨i, hi, hget, hlt, hle, hstrict⟩
        · right
          refine ⟨0, by simp, ?_, ?_, ?_, ?_⟩
          · simp [hstep, heq]
          · rw [hstep, heq]; exact h
          · intro j hj
            rw [hstep, heq]
            cases j with
            | zero => simp
            | succ j =>
                have hj2 : j < xs.length := by simpa using hj
                have := hall (xs.get ⟨j, hj2⟩) (xs.get_mem _ _)
                simpa using this
          · intro j hj hj0; omega
        · right
          refine ⟨i + 1, by simpa using Nat.succ_lt_succ hi, ?_, ?_, ?_, ?_⟩
          · rw [hstep]; simpa using hget
          · rw [hstep]; exact lt_trans hlt h
          · intro j hj
            rw [hstep]
            cases j with
            | zero => simpa using le_of_lt (lt_of_lt_of_le hlt (le_refl _))
            | succ j =>
                have hj2 : j < xs.length := by simpa using hj
                simpa using hle j hj2
          · intro j hj hji
            rw [hstep]
            cases j with
            | zero => simpa using hlt
            | succ j =>
                have hj2 : j < xs.length := by simpa using hj
                simpa using hstrict j hj2 (by omega)
      · have hb : |rankOf best - t| ≤ |rankOf x - t| := not_lt.mp h
        have hstep : closestAlphaAux t best |rankOf best - t| (x :: xs) =
            closestAlphaAux t best |rankOf best - t| xs := by
          simp [closestAlphaAux, h]
        rcases ih best with ⟨heq, hall⟩ | ⟨i, hi, hget, hlt, hle, hstrict⟩
        · left
          refine ⟨by rw [hstep, heq], ?_⟩
          intro y hy
          rcases List.mem_cons.mp hy with rfl | hy2
          · exact hb
          · exact hall y hy2
        · right
          refine ⟨i + 1, by simpa using Nat.succ_lt_succ hi, ?_, ?_, ?_, ?_⟩
          · rw [hstep]; simpa using hget
          · rw [hstep]; exact hlt
          · intro j hj
            rw [hstep]
            cases j with
            | zero => simpa using le_trans (le_of_lt hlt) hb
            | succ j =>
                have hj2 : j < xs.length := by simpa using hj
                simpa using hle j hj2
          · intro j hj hji
            rw [hstep]
            cases j with
            | zero => simpa using lt_of_lt_of_le hlt hb
            | succ j =>
                have hj2 : j < xs.length := by simpa using hj
                simpa using hstrict j hj2 (by omega)


/-- C4: when a schema carries availability data for the active system, the
availability clamp replaces the chosen size with the available candidate at
smallest absolute difference (rank distance for alpha), and on an exact tie
the earliest-indexed (lower, as lists are ascending) candidate wins; with
numeric candidates [44,46,48,52] a value of 50 clamps to 48 and 47 clamps
to 46. -/
theorem availability_clamp_spec :
    (∀ (t x : Int) (xs : List Int),
      ∃ (i : Nat) (hi : i < (x :: xs).length),
        (x :: xs).get ⟨i, hi⟩ = closestNumeric t (x :: xs) ∧
        (∀ (j : Nat) (hj : j < (x :: xs).length),
          |closestNumeric t (x :: xs) - t| ≤ |(x :: xs).get ⟨j, hj⟩ - t|) ∧
        (∀ (j : Nat) (hj : j < (x :: xs).length), j < i →
          |closestNumeric t (x :: xs) - t| < |(x :: xs).get ⟨j, hj⟩ - t|)) ∧
    (∀ (a x : Str) (xs : List Str) (ta : Nat), alphaToIndex a = some ta →
      ∃ (i : Nat) (hi : i < (x :: xs).length),
        (x :: xs).get ⟨i, hi⟩ = closestAlpha a (x :: xs) ∧
        (∀ (j : Nat) (hj : j < (x :: xs).length),
          |rankOf (closestAlpha a (x :: xs)) - (ta : Int)| ≤
            |rankOf ((x :: xs).get ⟨j, hj⟩) - (ta : Int)|) ∧
        (∀ (j : Nat) (hj : j < (x :: xs).length), j < i →
          |rankOf (closestAlpha a (x :: xs)) - (ta : Int)| <
            |rankOf ((x :: xs).get ⟨j, hj⟩) - (ta : Int)|)) ∧
    (∀ (s : Schema) (r : Rec) (av : Avail) (v : Int),
      s.system = SizeSystem.eu_numeric → s.available = some av → av.numeric ≠ [] →
      r.size_eu = some v →
      (clampRecommendationToProduct (some s) r).size_eu =
        some (closestNumeric v av.numeric)) ∧
    closestNumeric 50 [44, 46, 48, 52] = 48 ∧
    closestNumeric 47 [44, 46, 48, 52] = 46 := by
  refine ⟨fun t x xs => ?_, fun a x xs ta hta => ?_,
    fun s r av v hsys hav hne hse => ?_, by decide, by decide⟩
  · have hcn : closestNumeric t (x :: xs) = closestNumericAux t x |x - t| xs := rfl
    rcases closestNumericAux_spec t xs x with ⟨heq, hall⟩ | ⟨i, hi, hget, hlt, hle, hstrict⟩
    · refine ⟨0, by simp, ?_, ?_, ?_⟩
      · simp [hcn, heq]
      · intro j hj
        rw [hcn, heq]
        cases j with
        | zero => simp
        | succ j =>
            have hj2 : j < xs.length := by simpa using hj
            have := hall (xs.get ⟨j, hj2⟩) (xs.get_mem _ _)
            simpa using this
      · intro j hj hji; omega
    · refine ⟨i + 1, by simpa using Nat.succ_lt_succ hi, ?_, ?_, ?_⟩
      · rw [hcn]; simpa using hget
      · intro j hj
        rw [hcn]
        cases j with
        | zero => simpa using le_of_lt hlt
        | succ j =>
            have hj2 : j < xs.length := by simpa using hj
            simpa using hle j hj2
      · intro j hj hji
        rw [hcn]
        cases j with
        | zero => simpa using hlt
        | succ j =>
            have hj2 : j < xs.length := by simpa using hj
            simpa using hstrict j hj2 (by omega)
  · have hca : closestAlpha a (x :: xs) = closestAlphaAux (ta : Int) x |rankOf x - (ta : Int)| xs := by
      simp [closestAlpha, hta]
    rcases closestAlphaAux_spec (ta : Int) xs x with ⟨heq, hall⟩ | ⟨i, hi, hget, hlt, hle, hstrict⟩
    · refine ⟨0, by simp, ?_, ?_, ?_⟩
      · simp [hca, heq]
      · intro j hj
        rw [hca, heq]
        cases j with
        | zero => simp
        | succ j =>
            have hj2 : j < xs.length := by simpa using hj
            have := hall (xs.get ⟨j, hj2⟩) (xs.get_mem _ _)
            simpa using this
      · intro j hj hji; omega
    · refine ⟨i + 1, by simpa using Nat.succ_lt_succ hi, ?_, ?_, ?_⟩
      · rw [hca]; simpa using hget
      · intro j hj
        rw [hca]
        cases j with
        | zero => simpa using le_of_lt hlt
        | succ j =>
            have hj2 : j < xs.length := by simpa using hj
            simpa using hle j hj2
      · intro j hj hji
        rw [hca]
        cases j with
        | zero => simpa using hlt
        | succ j =>
            have hj2 : j < xs.length := by simpa using hj
            simpa using hstrict j hj2 (by omega)
  · obtain ⟨g, cat, sys, ask, req, nts, avf⟩ := s
    simp only at hsys hav
    subst hsys
    subst hav
    simp [clampRecommendationToProduct, hse, hne]

/-- C4 witness: the clamp wiring applied at a concrete EU schema carrying
availability [44,46,48,52] and a recommendation of 50, yielding 48. -/
theorem availability_clamp_spec_witness :
    (clampRecommendationToProduct
      (some { schemaForGeneral Category.unknown none with
                available := some { numeric := [44, 46, 48, 52] } })
      { system := SizeSystem.eu_numeric, gender := none, category := Category.unknown,
        length := LengthCat.standard, size_eu := some 50 }).size_eu = some 48 := by
  have h := availability_clamp_spec.2.2.1
    { schemaForGeneral Category.unknown none with
        available := some { numeric := [44, 46, 48, 52] } }
    { system := SizeSystem.eu_numeric, gender := none, category := Category.unknown,
      length := LengthCat.standard, size_eu := some 50 }
    { numeric := [44, 46, 48, 52] } 50 rfl rfl (by decide) rfl
  exact h.trans (by decide)



/-- A collar-schema reconciliation step moves an in-band EU capture to the
shirt field. -/
lemma reconcileShirt_moves (schema : Schema) (out : ParseOut) (v : Int)
    (hsys : schema.system = SizeSystem.shirt_collar_eu)
    (hsh : out.shirt_size_eu = none) (hus : out.usual_size_eu = some v)
    (h1 : 37 ≤ v) (h2 : v ≤ 46) :
    reconcileShirt (some schema) out =
      { out with shirt_size_eu := some v, usual_size_eu := none } := by
  unfold reconcileShirt
  rw [hus]
  have hsysb : sysIs (some schema) SizeSystem.shirt_collar_eu = true := by
    simp [sysIs, hsys]
  rw [if_pos hsysb]
  have hc : truthyN out.shirt_size_eu = false ∧ v ≠ 0 ∧ 37 ≤ v ∧ v ≤ 46 :=
    ⟨by simp [hsh, truthyN], by omega, h1, h2⟩
  exact if_pos hc

/-- C6: for every text parsed under a shirt-collar schema, if the parse
captured no shirt size but captured a `usual_size_eu` value inside the
collar band 37–46, `parseUserInput` returns that value in `shirt_size_eu`
and leaves `usual_size_eu` null. -/
theorem parse_collar_reconciliation (text : Str) (schema : Schema) (v : Int)
    (hsys : schema.system = SizeSystem.shirt_collar_eu)
    (hpre : (parseMain (lowerL text) (some schema)).shirt_size_eu = none)
    (husual : (parseMain (lowerL text) (some schema)).usual_size_eu = some v)
    (h37 : 37 ≤ v) (h46 : v ≤ 46) :
    (parseUserInput (some text) (some schema)).shirt_size_eu = some v ∧
    (parseUserInput (some text) (some schema)).usual_size_eu = none := by
  by_cases ht : lowerL text = []
  · have h0 : (parseMain [] (some schema)).usual_size_eu = none := rfl
    rw [ht, h0] at husual
    exact absurd husual (by simp)
  · unfold parseUserInput
    simp only
    rw [if_neg ht, reconcileShirt_moves schema _ v hsys hpre husual h37 h46]
    exact ⟨rfl, rfl⟩

/-- C6 witness: parsing "size 40" under the men's-shirt collar schema
yields `shirt_size_eu = 40` and a null `usual_size_eu`. -/
theorem parse_collar_reconciliation_witness :
    (parseUserInput (some "size 40".toList)
      (some (schemaForMenswear Category.shirt))).shirt_size_eu = some 40 ∧
    (parseUserInput (some "size 40".toList)
      (some (schemaForMenswear Category.shirt))).usual_size_eu = none :=
  parse_collar_reconciliation "size 40".toList (schemaForMenswear Category.shirt) 40
    (by decide) (by decide) (by decide) (by decide) (by decide)


/-- The example text of C5/C10 (the apostrophe is a JS word boundary). -/
def exTextC5 : Str := "I'm 180, 82, size 50".toList

/-- A schema matches at most one system. -/
lemma sysIs_unique {schema : Option Schema} {s1 s2 : SizeSystem}
    (h1 : sysIs schema s1 = true) (h2 : sysIs schema s2 = true) : s1 = s2 := by
  cases schema with
  | none => simp [sysIs] at h1
  | some s =>
      simp [sysIs] at h1 h2
      exact h1.symm.trans h2

/-- C5: the bare-number loop consumes 2–3 digit numbers left-to-right,
skipping numbers already assigned: 140–210 claims height first when height
is unset, then the schema's system-directed range (collar 37–46, waist
24–48, EU 34–60) claims the size slot, then 40–180 claims weight, and
anything left goes to `ambiguous_numbers`; in particular
`parseUserInput("I'm 180, 82, size 50", euSchema)` yields height 180,
weight 82, `usual_size_eu` 50. -/
theorem parse_bare_number_priority :
    (∀ (schema : Option Schema) (out : ParseOut) (used : List Int) (n : Int),
      0 < used.count n →
      bareStep schema (out, used) n = (out, used.erase n)) ∧
    (∀ (schema : Option Schema) (out : ParseOut) (used : List Int) (n : Int),
      used.count n = 0 → truthyN out.height_cm = false → 140 ≤ n → n ≤ 210 →
      bareStep schema (out, used) n = ({ out with height_cm := some n }, used)) ∧
    (∀ (schema : Option Schema) (out : ParseOut) (used : List Int) (n : Int),
      used.count n = 0 → ¬(truthyN out.height_cm = false ∧ 140 ≤ n ∧ n ≤ 210) →
      sysIs schema SizeSystem.shirt_collar_eu = true →
      truthyN out.shirt_size_eu = false → 37 ≤ n → n ≤ 46 →
      bareStep schema (out, used) n = ({ out with shirt_size_eu := some n }, used)) ∧
    (∀ (schema : Option Schema) (out : ParseOut) (used : List Int) (n : Int),
      used.count n = 0 → ¬(truthyN out.height_cm = false ∧ 140 ≤ n ∧ n ≤ 210) →
      sysIs schema SizeSystem.waist_inch = true →
      truthyN out.waist_inch = false → 24 ≤ n → n ≤ 48 →
      bareStep schema (out, used) n = ({ out with waist_inch := some n }, used)) ∧
    (∀ (schema : Option Schema) (out : ParseOut) (used : List Int) (n : Int),
      used.count n = 0 → ¬(truthyN out.height_cm = false ∧ 140 ≤ n ∧ n ≤ 210) →
      sysIs schema SizeSystem.eu_numeric = true →
      truthyN out.usual_size_eu = false → 34 ≤ n → n ≤ 60 →
      bareStep schema (out, used) n = ({ out with usual_size_eu := some n }, used)) ∧
    (∀ (schema : Option Schema) (out : ParseOut) (used : List Int) (n : Int),
      used.count n = 0 → ¬(truthyN out.height_cm = false ∧ 140 ≤ n ∧ n ≤ 210) →
      ¬(sysIs schema SizeSystem.shirt_collar_eu = true ∧
        truthyN out.shirt_size_eu = false ∧ 37 ≤ n ∧ n ≤ 46) →
      ¬(sysIs schema SizeSystem.waist_inch = true ∧
        truthyN out.waist_inch = false ∧ 24 ≤ n ∧ n ≤ 48) →
      ¬(sysIs schema SizeSystem.eu_numeric = true ∧
        truthyN out.usual_size_eu = false ∧ 34 ≤ n ∧ n ≤ 60) →
      truthyN out.weight_kg = false → 40 ≤ n → n ≤ 180 →
      bareStep schema (out, used) n = ({ out with weight_kg := some n }, used)) ∧
    (∀ (schema : Option Schema) (out : ParseOut) (used : List Int) (n : Int),
      used.count n = 0 → ¬(truthyN out.height_cm = false ∧ 140 ≤ n ∧ n ≤ 210) →
      ¬(sysIs schema SizeSystem.shirt_collar_eu = true ∧
        truthyN out.shirt_size_eu = false ∧ 37 ≤ n ∧ n ≤ 46) →
      ¬(sysIs schema SizeSystem.waist_inch = true ∧
        truthyN out.waist_inch = false ∧ 24 ≤ n ∧ n ≤ 48) →
      ¬(sysIs schema SizeSystem.eu_numeric = true ∧
        truthyN out.usual_size_eu = false ∧ 34 ≤ n ∧ n ≤ 60) →
      ¬(truthyN out.weight_kg = false ∧ 40 ≤ n ∧ n ≤ 180) →
      bareStep schema (out, used) n =
        ({ out with ambiguous_numbers := out.ambiguous_numbers ++ [n] }, used)) ∧
    parseUserInput (some exTextC5) (some (schemaForGeneral Category.unknown none)) =
      { height_cm := some 180, weight_kg := some 82, usual_size_eu := some 50,
        shirt_size_eu := none, alpha_size := some ['M'], waist_inch := none,
        ambiguous_numbers := [] } := by
  refine ⟨?_, ?_, ?_, ?_, ?_, ?_, ?_, by decide⟩
  · intro schema out used n hc
    unfold bareStep
    simp only [if_pos hc]
  · intro schema out used n hc h1 h2 h3
    unfold bareStep
    rw [if_neg (by simp [hc]), if_pos ⟨h1, h2, h3⟩]
  · intro schema out used n hc hh hsys hsh h1 h2
    unfold bareStep
    rw [if_neg (by simp [hc]), if_neg hh, if_pos ⟨hsys, hsh, h1, h2⟩]
  · intro schema out used n hc hh hsys hw h1 h2
    unfold bareStep
    rw [if_neg (by simp [hc]), if_neg hh]
    rw [if_neg ?hcol, if_pos ⟨hsys, hw, h1, h2⟩]
    case hcol =>
      rintro ⟨hcs, -, -, -⟩
      exact absurd (sysIs_unique hsys hcs) (by decide)
  · intro schema out used n hc hh hsys hu h1 h2
    unfold bareStep
    rw [if_neg (by simp [hc]), if_neg hh]
    rw [if_neg ?hcol2, if_neg ?hwai2, if_pos ⟨hsys, hu, h1, h2⟩]
    case hcol2 =>
      rintro ⟨hcs, -, -, -⟩
      exact absurd (sysIs_unique hsys hcs) (by decide)
    case hwai2 =>
      rintro ⟨hcs, -, -, -⟩
      exact absurd (sysIs_unique hsys hcs) (by decide)
  · intro schema out used n hc hh hcol hwai heu hw h1 h2
    unfold bareStep
    rw [if_neg (by simp [hc]), if_neg hh, if_neg hcol, if_neg hwai, if_neg heu,
      if_pos ⟨hw, h1, h2⟩]
  · intro schema out used n hc hh hcol hwai heu hwgt
    unfold bareStep
    rw [if_neg (by simp [hc]), if_neg hh, if_neg hcol, if_neg hwai, if_neg heu, if_neg hwgt]


/-- The alpha capture of `parseUserInput` as a function of the lowered
text alone. -/
def alphaFromText (t : Str) : Option Str := (findAlpha t).bind normalizeAlphaSize

/-- The bare-number loop never writes `alpha_size`. -/
lemma bareStep_alpha (schema : Option Schema) (st : ParseOut × List Int) (n : Int) :
    (bareStep schema st n).1.alpha_size = st.1.alpha_size := by
  obtain ⟨out, used⟩ := st
  simp only [bareStep]
  repeat' split
  all_goals rfl

/-- Folding the bare-number loop preserves `alpha_size`. -/
lemma foldl_bareStep_alpha (schema : Option Schema) :
    ∀ (nums : List Int) (st : ParseOut × List Int),
      ((nums.foldl (bareStep schema) st).1.alpha_size = st.1.alpha_size) := by
  intro nums
  induction nums with
  | nil => intro st; rfl
  | cons n ns ih => intro st; rw [List.foldl_cons, ih, bareStep_alpha]

/-- The alpha field of the main parse is the standalone alpha capture. -/
lemma parseMain_alpha (t : Str) (schema : Option Schema) :
    (parseMain t schema).alpha_size = alphaFromText t := by
  simp only [parseMain]
  rw [foldl_bareStep_alpha]
  split <;> rfl

/-- The collar reconciliation never touches `alpha_size`. -/
lemma reconcileShirt_alpha (schema : Option Schema) (out : ParseOut) :
    (reconcileShirt schema out).alpha_size = out.alpha_size := by
  unfold reconcileShirt
  repeat' split
  all_goals rfl

/-- C10: `parseUserInput` captures a standalone alpha token from the text
and sets `alpha_size` regardless of the active schema's system; because an
apostrophe is a word boundary, "I'm 180, 82, size 50" parsed under any
schema returns `alpha_size = 'M'` alongside the numeric fields. -/
theorem parse_alpha_schema_independent :
    (∀ (text : Option Str) (schema : Option Schema),
      (parseUserInput text schema).alpha_size =
        alphaFromText (lowerL (match text with | some s => s | none => []))) ∧
    (∀ schema : Option Schema,
      (parseUserInput (some exTextC5) schema).alpha_size = some "M".toList) := by
  have h : ∀ (text : Option Str) (schema : Option Schema),
      (parseUserInput text schema).alpha_size =
        alphaFromText (lowerL (match text with | some s => s | none => [])) := by
    intro text schema
    unfold parseUserInput
    simp only
    split
    · rename_i hemp
      rw [hemp]
      rfl
    · rw [reconcileShirt_alpha, parseMain_alpha]
  exact ⟨h, fun schema => (h (some exTextC5) schema).trans (by decide)⟩

/-- C5 witness: the height clause of the priority characterization applied
at the concrete number 180 with an empty record. -/
theorem parse_bare_number_priority_witness :
    bareStep (some (schemaForGeneral Category.unknown none)) (emptyParseOut, []) 180 =
      ({ emptyParseOut with height_cm := some 180 }, []) :=
  parse_bare_number_priority.2.1 (some (schemaForGeneral Category.unknown none))
    emptyParseOut [] 180 (by decide) (by decide) (by decide) (by decide)


/-- Members of `dropWhile` are members of the original list. -/
lemma mem_of_mem_dropWhile {p : Char → Bool} {l : Str} {x : Char}
    (h : x ∈ l.dropWhile p) : x ∈ l := by
  induction l with
  | nil => simp at h
  | cons c rest ih =>
      by_cases hp : p c
      · rw [List.dropWhile_cons, if_pos hp] at h
        exact List.mem_cons_of_mem c (ih h)
      · rw [List.dropWhile_cons, if_neg hp] at h
        exact h

/-- A leftmost-match scan finds nothing when no position matches. -/
lemma scanFirst_eq_none {α : Type} (tryAt : Option Char → Str → Option α) :
    ∀ (l : Str) (prev : Option Char),
      (∀ (p : Option Char) (suf : Str), suf.IsSuffix l → tryAt p suf = none) →
      scanFirst tryAt prev l = none := by
  intro l
  induction l with
  | nil => intro prev h; exact h prev [] (List.suffix_refl [])
  | cons c rest ih =>
      intro prev h
      unfold scanFirst
      rw [h prev (c :: rest) (List.suffix_refl _)]
      exact ih (some c) (fun p suf hsuf => h p suf (hsuf.trans (List.suffix_cons c rest)))

/-- The `\s*(\d{2})\b` tail needs a digit. -/
lemma digitTail_none {l : Str} (h : ∀ c ∈ l, c.isDigit = false) :
    digitTail l = none := by
  unfold digitTail
  split
  · rename_i d1 d2 r heq
    have hd1 : d1 ∈ l := mem_of_mem_dropWhile (p := isWS) (by rw [heq]; exact List.mem_cons_self _ _)
    rw [h d1 hd1]
    simp
  · rfl

/-- The height/weight unit patterns need digits. -/
lemma tryUnitAt_none {unit : Str} {prev : Option Char} {l : Str}
    (h : ∀ c ∈ l, c.isDigit = false) : tryUnitAt unit prev l = none := by
  unfold tryUnitAt
  split
  · rename_i a b rest
    rw [h a (List.mem_cons_self _ _)]
    simp
  · rfl

/-- `w(\d{2})` needs digits. -/
lemma tryW1At_none {prev : Option Char} {l : Str}
    (h : ∀ c ∈ l, c.isDigit = false) : tryW1At prev l = none := by
  unfold tryW1At
  split
  · rfl
  · split
    · rename_i c d1 d2 rest
      rw [h d1 (by simp)]
      simp
    · rfl

/-- `(\d{2})\s*w` needs digits. -/
lemma tryW2At_none {prev : Option Char} {l : Str}
    (h : ∀ c ∈ l, c.isDigit = false) : tryW2At prev l = none := by
  unfold tryW2At
  split
  · rfl
  · split
    · rename_i d1 d2 rest
      rw [h d1 (by simp)]
      simp
    · rfl

/-- `eu\s*(\d{2})` needs digits. -/
lemma tryEuAt_none {prev : Option Char} {l : Str}
    (h : ∀ c ∈ l, c.isDigit = false) : tryEuAt prev l = none := by
  unfold tryEuAt
  split
  · rfl
  · split
    · exact digitTail_none (fun c hc => h c (List.mem_of_mem_drop hc))
    · rfl

/-- `size\s*(\d{2})` needs digits. -/
lemma trySizeAt_none {prev : Option Char} {l : Str}
    (h : ∀ c ∈ l, c.isDigit = false) : trySizeAt prev l = none := by
  unfold trySizeAt
  split
  · rfl
  · split
    · exact digitTail_none (fun c hc => h c (List.mem_of_mem_drop hc))
    · rfl

/-- `(shirt|collar)\s*(\d{2})` needs digits. -/
lemma tryShirtAt_none {prev : Option Char} {l : Str}
    (h : ∀ c ∈ l, c.isDigit = false) : tryShirtAt prev l = none := by
  unfold tryShirtAt
  split
  · rfl
  · split
    · exact digitTail_none (fun c hc => h c (List.mem_of_mem_drop hc))
    · split
      · exact digitTail_none (fun c hc => h c (List.mem_of_mem_drop hc))
      · rfl

/-- No alpha token matches when the text has none of the letters
s, m, l, x. -/
lemma tryAlphaAt_none {prev : Option Char} {l : Str}
    (h : ∀ c ∈ l, c ∉ (['s', 'm', 'l', 'x'] : List Char)) : tryAlphaAt prev l = none := by
  unfold tryAlphaAt
  split
  · rfl
  · apply List.find?_eq_none.mpr
    intro alt halt
    cases l with
    | nil =>
        fin_cases halt <;> decide
    | cons c rest =>
        have hc := h c (List.mem_cons_self _ _)
        simp only [List.mem_cons, List.mem_singleton] at hc
        push_neg at hc
        obtain ⟨hs, hm, hl, hx, -⟩ := hc
        have hs2 : ('s' == c) = false := beq_eq_false_iff_ne.mpr (Ne.symm hs)
        have hm2 : ('m' == c) = false := beq_eq_false_iff_ne.mpr (Ne.symm hm)
        have hl2 : ('l' == c) = false := beq_eq_false_iff_ne.mpr (Ne.symm hl)
        have hx2 : ('x' == c) = false := beq_eq_false_iff_ne.mpr (Ne.symm hx)
        fin_cases halt <;> simp [List.isPrefixOf, hs2, hm2, hl2, hx2]

/-- The global 2-3-digit scan is empty on digit-free text. -/
lemma scanNums_nil_of :
    ∀ (k : Nat) (l : Str), l.length ≤ k → (∀ c ∈ l, c.isDigit = false) →
      ∀ prev, scanNums prev l = [] := by
  intro k
  induction k with
  | zero =>
      intro l hl h prev
      cases l with
      | nil => rfl
      | cons c rest => simp at hl
  | succ k ih =>
      intro l hl h prev
      match l with
      | [] => rfl
      | [a] => rfl
      | [a, b] =>
          rw [scanNums, h a (by simp)]
          simp
      | a :: b :: c :: r =>
          rw [scanNums, h a (by simp)]
          simp only [Bool.and_false, Bool.false_and, if_false]
          exact ih (b :: c :: r) (by simpa using hl) (fun x hx => h x (by simp [hx])) (some a)


/-- The main parse of a text with no digits and no alpha letters is the
all-null record. -/
lemma parseMain_no_token (t : Str) (schema : Option Schema)
    (hd : ∀ c ∈ t, c.isDigit = false)
    (ha : ∀ c ∈ t, c ∉ (['s', 'm', 'l', 'x'] : List Char)) :
    parseMain t schema = emptyParseOut := by
  have h1 : findCm t = none :=
    scanFirst_eq_none _ t none
      (fun p suf hsuf => tryUnitAt_none (fun c hc => hd c (hsuf.subset hc)))
  have h2 : findKg t = none :=
    scanFirst_eq_none _ t none
      (fun p suf hsuf => tryUnitAt_none (fun c hc => hd c (hsuf.subset hc)))
  have h3 : findEu t = none :=
    scanFirst_eq_none _ t none
      (fun p suf hsuf => tryEuAt_none (fun c hc => hd c (hsuf.subset hc)))
  have h4 : findSizeWord t = none :=
    scanFirst_eq_none _ t none
      (fun p suf hsuf => trySizeAt_none (fun c hc => hd c (hsuf.subset hc)))
  have h5 : findShirt t = none :=
    scanFirst_eq_none _ t none
      (fun p suf hsuf => tryShirtAt_none (fun c hc => hd c (hsuf.subset hc)))
  have h6 : findW1 t = none :=
    scanFirst_eq_none _ t none
      (fun p suf hsuf => tryW1At_none (fun c hc => hd c (hsuf.subset hc)))
  have h7 : findW2 t = none :=
    scanFirst_eq_none _ t none
      (fun p suf hsuf => tryW2At_none (fun c hc => hd c (hsuf.subset hc)))
  have h8 : findAlpha t = none :=
    scanFirst_eq_none _ t none
      (fun p suf hsuf => tryAlphaAt_none (fun c hc => ha c (hsuf.subset hc)))
  have h9 : scanNums none t = [] :=
    scanNums_nil_of t.length t (le_refl _) hd none
  unfold parseMain
  rw [h9]
  simp only [h1, h2, h3, h4, h5, h6, h7, h8, List.foldl_nil]
  rfl

/-- C8: `parseUserInput` terminates without throwing on every input (the
embedding is a total function, covering null/empty text and absent
schemas), and fields it cannot resolve stay null: for any text — null
included — containing no digits and none of the alpha-size letters
s/m/l/x, under any schema, every field of the returned record is null. -/
theorem parseUserInput_no_token_null (text : Option Str) (schema : Option Schema)
    (h : ∀ c ∈ lowerL (match text with | some s => s | none => []),
      c.isDigit = false ∧ c ∉ (['s', 'm', 'l', 'x'] : List Char)) :
    parseUserInput text schema = emptyParseOut := by
  unfold parseUserInput
  simp only
  split
  · rfl
  · rw [parseMain_no_token _ schema (fun c hc => (h c hc).1) (fun c hc => (h c hc).2)]
    unfold reconcileShirt
    split <;> rfl

/-- C8 witness: a token-free text under the general EU schema parses to the
all-null record. -/
theorem parseUserInput_no_token_null_witness :
    parseUserInput (some "happy birthday".toList)
      (some (schemaForGeneral Category.unknown none)) = emptyParseOut :=
  parseUserInput_no_token_null (some "happy birthday".toList)
    (some (schemaForGeneral Category.unknown none)) (by decide)


/-- A digit character differs from any non-digit character. -/
lemma digit_ne_of {c d : Char} (h : c.isDigit = true) (hd : d.isDigit = false) : c ≠ d := by
  intro he
  subst he
  rw [h] at hd
  cases hd

/-- Lowercasing fixes digit characters. -/
lemma digit_jsLower {c : Char} (h : c.isDigit = true) : jsLowerChar c = c := by
  unfold jsLowerChar
  rw [if_neg]
  rintro ⟨hA, -⟩
  simp [Char.isDigit] at h
  have h9 : c ≤ '9' := h.2
  have : ('A' : Char) ≤ '9' := le_trans hA h9
  exact absurd this (by decide)

/-- Lowercasing fixes all-digit strings. -/
lemma lowerL_digits {l : Str} (h : ∀ c ∈ l, c.isDigit = true) : lowerL l = l := by
  induction l with
  | nil => rfl
  | cons c rest ih =>
      unfold lowerL
      rw [List.map_cons, digit_jsLower (h c (by simp))]
      have := ih (fun x hx => h x (by simp [hx]))
      unfold lowerL at this
      rw [this]

/-- Digits are not whitespace. -/
lemma digit_not_ws {c : Char} (h : c.isDigit = true) : isWS c = false := by
  unfold isWS
  simp only [decide_eq_false_iff_not]
  rintro (rfl | rfl | rfl | rfl) <;> exact absurd h (by decide)

/-- `dropWhile` is the identity when no element satisfies the predicate. -/
lemma dropWhile_eq_self_of {p : Char → Bool} {l : Str}
    (h : ∀ c ∈ l, p c = false) : l.dropWhile p = l := by
  cases l with
  | nil => rfl
  | cons c rest => rw [List.dropWhile_cons, if_neg (by rw [h c (by simp)]; simp)]

/-- Trimming fixes all-digit strings. -/
lemma jsTrim_digits {l : Str} (h : ∀ c ∈ l, c.isDigit = true) : jsTrim l = l := by
  unfold jsTrim
  rw [dropWhile_eq_self_of (fun c hc => digit_not_ws (h c hc))]
  rw [dropWhile_eq_self_of (fun c hc => digit_not_ws (h c (List.mem_reverse.mp hc)))]
  exact List.reverse_reverse l

/-- An alias rewrite is inert on a different string. -/
lemma aliasStep_ne {a b v : Str} (h : v ≠ a) : aliasStep a b v = v := by
  unfold aliasStep
  exact if_neg h

/-- A two-spelling alias rewrite is inert on a different string. -/
lemma aliasStep2_ne {a1 a2 b v : Str} (h1 : v ≠ a1) (h2 : v ≠ a2) :
    aliasStep2 a1 a2 b v = v := by
  unfold aliasStep2
  rw [if_neg]
  rintro (he | he)
  · exact h1 he
  · exact h2 he

/-- The alias chain is inert on all-digit strings. -/
lemma aliasChain_digits {l : Str} (h : ∀ c ∈ l, c.isDigit = true) : aliasChain l = l := by
  have n1 : l ≠ "extra small".toList := by
    rintro rfl; exact absurd (h 'e' (by decide)) (by decide)
  have n2 : l ≠ "small".toList := by
    rintro rfl; exact absurd (h 's' (by decide)) (by decide)
  have n3 : l ≠ "medium".toList := by
    rintro rfl; exact absurd (h 'e' (by decide)) (by decide)
  have n4 : l ≠ "large".toList := by
    rintro rfl; exact absurd (h 'a' (by decide)) (by decide)
  have n5 : l ≠ "extra large".toList := by
    rintro rfl; exact absurd (h 'e' (by decide)) (by decide)
  have n6 : l ≠ "2xl".toList := by
    rintro rfl; exact absurd (h 'x' (by decide)) (by decide)
  have n7 : l ≠ "xxl".toList := by
    rintro rfl; exact absurd (h 'x' (by decide)) (by decide)
  have n8 : l ≠ "3xl".toList := by
    rintro rfl; exact absurd (h 'x' (by decide)) (by decide)
  have n9 : l ≠ "xxxl".toList := by
    rintro rfl; exact absurd (h 'x' (by decide)) (by decide)
  unfold aliasChain
  rw [aliasStep_ne n1, aliasStep_ne n2, aliasStep_ne n3, aliasStep_ne n4,
    aliasStep_ne n5, aliasStep2_ne n6 n7, aliasStep2_ne n8 n9]

/-- All-digit strings are not alpha sizes. -/
lemma normalizeAlphaSize_digits {l : Str} (h : ∀ c ∈ l, c.isDigit = true) :
    normalizeAlphaSize l = none := by
  unfold normalizeAlphaSize
  have hfil : (lowerL l).filter (fun c => c ≠ '.') = l := by
    rw [lowerL_digits h]
    apply List.filter_eq_self.mpr
    intro a ha
    simpa using digit_ne_of (h a ha) (by decide)
  rw [hfil, jsTrim_digits h]
  have hfil2 : l.filter (fun c => c ≠ '-') = l := by
    apply List.filter_eq_self.mpr
    intro a ha
    simpa using digit_ne_of (h a ha) (by decide)
  rw [aliasChain_digits h, hfil2]
  split
  · rfl
  · rw [if_neg]
    intro hcon
    have hm : l ∈ ALPHA_ORDER := by simpa using hcon
    simp only [ALPHA_ORDER, List.mem_cons, List.mem_singleton] at hm
    rcases hm with he | he | he | he | he | he | he | he | he <;>
      first
        | exact absurd (h 'x' (he ▸ (by decide))) (by decide)
        | exact absurd (h 's' (he ▸ (by decide))) (by decide)
        | exact absurd (h 'm' (he ▸ (by decide))) (by decide)
        | exact absurd (h 'l' (he ▸ (by decide))) (by decide)
        | simp at he


/-- An existence scan is false when no position matches. -/
lemma scanAny_eq_false (tryAt : Option Char → Str → Bool) :
    ∀ (l : Str) (prev : Option Char),
      (∀ (p : Option Char) (suf : Str), suf.IsSuffix l → tryAt p suf = false) →
      scanAny tryAt prev l = false := by
  intro l
  induction l with
  | nil => intro prev h; exact h prev [] (List.suffix_refl [])
  | cons c rest ih =>
      intro prev h
      unfold scanAny
      rw [h prev (c :: rest) (List.suffix_refl _)]
      rw [ih (some c) (fun p suf hsuf => h p suf (hsuf.trans (List.suffix_cons c rest)))]
      rfl

/-- `w(\d{2})` cannot match inside an all-digit string. -/
lemma tryW1At_digits {prev : Option Char} {l : Str}
    (h : ∀ c ∈ l, c.isDigit = true) : tryW1At prev l = none := by
  unfold tryW1At
  split
  · rfl
  · split
    · rename_i c d1 d2 rest
      have hc : c ≠ 'w' := digit_ne_of (h c (by simp)) (by decide)
      simp [hc]
    · rfl

/-- `(\d{2})\s*w` cannot match inside an all-digit string. -/
lemma tryW2At_digits {prev : Option Char} {l : Str}
    (h : ∀ c ∈ l, c.isDigit = true) : tryW2At prev l = none := by
  unfold tryW2At
  split
  · rfl
  · split
    · rename_i d1 d2 rest
      rw [dropWhile_eq_self_of (fun c hc => digit_not_ws (h c (by simp [hc])))]
      cases rest with
      | nil => split <;> rfl
      | cons c r =>
          have hc : c ≠ 'w' := digit_ne_of (h c (by simp)) (by decide)
          simp [hc]
    · rfl

/-- `waist` is not a prefix of an all-digit string. -/
lemma waistPrefix_digits {l : Str} (h : ∀ c ∈ l, c.isDigit = true) :
    ("waist".toList.isPrefixOf l) = false := by
  cases l with
  | nil => decide
  | cons c rest =>
      have hc : c ≠ 'w' := digit_ne_of (h c (by simp)) (by decide)
      simp [List.isPrefixOf, beq_eq_false_iff_ne.mpr (Ne.symm hc)]

/-- The waist pattern cannot match at any position of an all-digit
string. -/
lemma tryWaistPatAt_digits {prev : Option Char} {l : Str}
    (h : ∀ c ∈ l, c.isDigit = true) : tryWaistPatAt prev l = false := by
  unfold tryWaistPatAt
  split
  · rfl
  · rw [tryW1At_digits h, tryW2At_digits h, waistPrefix_digits h]
    rfl

/-- All-digit strings carry no waist pattern. -/
lemma hasWaistPattern_digits {l : Str} (h : ∀ c ∈ l, c.isDigit = true) :
    hasWaistPattern l = false := by
  unfold hasWaistPattern
  exact scanAny_eq_false _ l none
    (fun p suf hsuf => tryWaistPatAt_digits (fun c hc => h c (hsuf.subset hc)))


/-- Values that are all plain numerals in 47-60 classify as EU numeric. -/
lemma detectSystem_eu_of_tailoring (vs : List Str)
    (hvals : ∀ v ∈ vs, (∀ c ∈ v, c.isDigit = true) ∧
      ∃ n : Int, parseIntSafe (lowerL v) = some n ∧ 47 ≤ n ∧ n ≤ 60) :
    detectSystemFromVariantValues vs = SizeSystem.eu_numeric := by
  have hW : vs.any (fun v => hasWaistPattern (lowerL v)) = false := by
    simp only [List.any_eq_false]
    intro v hv
    rw [lowerL_digits (hvals v hv).1]
    simp [hasWaistPattern_digits (hvals v hv).1]
  have hA : vs.any (fun v => (normalizeAlphaSize (lowerL v)).isSome) = false := by
    simp only [List.any_eq_false]
    intro v hv
    rw [lowerL_digits (hvals v hv).1]
    simp [normalizeAlphaSize_digits (hvals v hv).1]
  have hC : vs.any (fun v =>
      match parseIntSafe (lowerL v) with
      | some n => decide (37 ≤ n) && decide (n ≤ 46)
      | none => false) = false := by
    simp only [List.any_eq_false]
    intro v hv
    obtain ⟨n, hn, h47, h60⟩ := (hvals v hv).2
    rw [hn]
    simp
    omega
  unfold detectSystemFromVariantValues
  rw [hW, hA, hC]
  simp


/-- C1 (amended): for every men's-shirt product whose size-option values
are all plain numerals lying entirely within 47-60,
`detectSizeSchemaFromProduct` returns a schema with system `eu_numeric`,
not `shirt_collar_eu`.  (Values in 44-46 fall inside the collar band 37-46
and force collar sizing instead — see the counterexample.) -/
theorem detect_mens_shirt_tailoring_eu (p : Product)
    (hg : inferGenderFromProduct (some p) = some Gender.male)
    (hc : inferCategoryFromProduct (some p) = Category.shirt)
    (hne : collectOptionValues (some p) (getOptionIndexByName (some p) sizeNameMatchers) ≠ [])
    (hvals : ∀ v ∈ collectOptionValues (some p) (getOptionIndexByName (some p) sizeNameMatchers),
      (∀ c ∈ v, c.isDigit = true) ∧
      ∃ n : Int, parseIntSafe (lowerL v) = some n ∧ 47 ≤ n ∧ n ≤ 60) :
    (detectSizeSchemaFromProduct (some p)).map (fun s => s.system) =
      some SizeSystem.eu_numeric := by
  have hdet := detectSystem_eu_of_tailoring _ hvals
  have htail : (collectOptionValues (some p)
      (getOptionIndexByName (some p) sizeNameMatchers)).any (fun v =>
        match parseIntSafe (lowerL v) with
        | some n => decide (44 ≤ n) && decide (n ≤ 60)
        | none => false) = true := by
    obtain ⟨v0, hv0⟩ := List.exists_mem_of_ne_nil _ hne
    apply List.any_eq_true.mpr
    refine ⟨v0, hv0, ?_⟩
    obtain ⟨n, hn, h47, h60⟩ := (hvals v0 hv0).2
    rw [hn]
    simp
    omega
  simp only [detectSizeSchemaFromProduct]
  rw [hg, hc, if_pos hne, hdet]
  simp [htail, schemaForGeneral, schemaForMenswear]


/-- C3 (amended): `detectSystemFromVariantValues` classifies by pattern
priority: waist tokens win over everything; otherwise alpha tokens win over
collar-range numerics (37-46) — not the other way round as the spec states
— which win over generic EU numerics; and for every product whose
size-option values are all W28..W40-style tokens,
`detectSizeSchemaFromProduct` returns a schema with system `waist_inch`. -/
theorem detect_priority_amended :
    (∀ values : List Str,
      (values.any (fun v => hasWaistPattern (lowerL v)) = true →
        detectSystemFromVariantValues values = SizeSystem.waist_inch) ∧
      (values.any (fun v => hasWaistPattern (lowerL v)) = false →
        values.any (fun v => (normalizeAlphaSize (lowerL v)).isSome) = true →
        detectSystemFromVariantValues values = SizeSystem.alpha) ∧
      (values.any (fun v => hasWaistPattern (lowerL v)) = false →
        values.any (fun v => (normalizeAlphaSize (lowerL v)).isSome) = false →
        values.any (fun v =>
          match parseIntSafe (lowerL v) with
          | some n => decide (37 ≤ n) && decide (n ≤ 46)
          | none => false) = true →
        detectSystemFromVariantValues values = SizeSystem.shirt_collar_eu) ∧
      (values.any (fun v => hasWaistPattern (lowerL v)) = false →
        values.any (fun v => (normalizeAlphaSize (lowerL v)).isSome) = false →
        values.any (fun v =>
          match parseIntSafe (lowerL v) with
          | some n => decide (37 ≤ n) && decide (n ≤ 46)
          | none => false) = false →
        detectSystemFromVariantValues values = SizeSystem.eu_numeric)) ∧
    (∀ p : Product,
      collectOptionValues (some p) (getOptionIndexByName (some p) sizeNameMatchers) ≠ [] →
      (∀ v ∈ collectOptionValues (some p) (getOptionIndexByName (some p) sizeNameMatchers),
        ∃ d1 d2 : Char, (v = ['W', d1, d2] ∨ v = ['w', d1, d2]) ∧
          d1.isDigit = true ∧ d2.isDigit = true ∧
          28 ≤ val2 d1 d2 ∧ val2 d1 d2 ≤ 40) →
      (detectSizeSchemaFromProduct (some p)).map (fun s => s.system) =
        some SizeSystem.waist_inch) := by
  constructor
  · intro values
    refine ⟨fun hW => ?_, fun hW hA => ?_, fun hW hA hC => ?_, fun hW hA hC => ?_⟩
    · simp only [detectSystemFromVariantValues]
      rw [hW]
      rfl
    · simp only [detectSystemFromVariantValues]
      rw [hW, hA]
      simp
    · simp only [detectSystemFromVariantValues]
      rw [hW, hA, hC]
      rfl
    · simp only [detectSystemFromVariantValues]
      rw [hW, hA, hC]
      simp
  · intro p hne hvals
    have hWany : (collectOptionValues (some p)
        (getOptionIndexByName (some p) sizeNameMatchers)).any
          (fun v => hasWaistPattern (lowerL v)) = true := by
      obtain ⟨v0, hv0⟩ := List.exists_mem_of_ne_nil _ hne
      apply List.any_eq_true.mpr
      refine ⟨v0, hv0, ?_⟩
      obtain ⟨d1, d2, hshape, hd1, hd2, -, -⟩ := hvals v0 hv0
      have hlow : lowerL v0 = ['w', d1, d2] := by
        rcases hshape with rfl | rfl <;>
          simp [lowerL, digit_jsLower hd1, digit_jsLower hd2,
            show jsLowerChar 'W' = 'w' from by decide,
            show jsLowerChar 'w' = 'w' from by decide]
      rw [hlow]
      simp [hasWaistPattern, scanAny, tryWaistPatAt, tryW1At, wordOpt, boundaryAfter,
        hd1, hd2]
    have hdet : detectSystemFromVariantValues (collectOptionValues (some p)
        (getOptionIndexByName (some p) sizeNameMatchers)) = SizeSystem.waist_inch := by
      simp only [detectSystemFromVariantValues]
      rw [hWany]
      rfl
    simp only [detectSizeSchemaFromProduct]
    rw [if_pos hne, hdet]
    simp


/-- A men's shirt whose size values 44 and 46 lie within 44-60. -/
def cexProdC1 : Product :=
  { title := some "Man Shirt".toList
    options := some ["Size".toList]
    variants := some [{ option1 := some "44".toList }, { option1 := some "46".toList }] }

/-- C1 counterexample: a men's-shirt product whose numeric size values 44
and 46 all lie within 44-60 is classified `shirt_collar_eu`, not
`eu_numeric` — the values also sit in the collar band 37-46, which wins. -/
theorem detect_mens_shirt_44_46_counterexample :
    inferGenderFromProduct (some cexProdC1) = some Gender.male ∧
    inferCategoryFromProduct (some cexProdC1) = Category.shirt ∧
    collectOptionValues (some cexProdC1) (getOptionIndexByName (some cexProdC1) sizeNameMatchers)
      = ["44".toList, "46".toList] ∧
    (detectSizeSchemaFromProduct (some cexProdC1)).map (fun s => s.system) =
      some SizeSystem.shirt_collar_eu := by
  refine ⟨by decide, by decide, by decide, by decide⟩

/-- A men's shirt with tailoring sizes 48 and 50. -/
def witProdC1 : Product :=
  { title := some "Man Shirt".toList
    options := some ["Size".toList]
    variants := some [{ option1 := some "48".toList }, { option1 := some "50".toList }] }

/-- C1 witness: the amended theorem applied at a concrete men's shirt with
size values 48 and 50. -/
theorem detect_mens_shirt_tailoring_eu_witness :
    (detectSizeSchemaFromProduct (some witProdC1)).map (fun s => s.system) =
      some SizeSystem.eu_numeric := by
  apply detect_mens_shirt_tailoring_eu
  · decide
  · decide
  · decide
  · intro v hv
    have hvs : collectOptionValues (some witProdC1)
        (getOptionIndexByName (some witProdC1) sizeNameMatchers)
        = ["48".toList, "50".toList] := by decide
    rw [hvs] at hv
    simp only [List.mem_cons, List.mem_singleton, List.not_mem_nil, or_false] at hv
    rcases hv with rfl | rfl
    · exact ⟨by decide, 48, by decide, by decide, by decide⟩
    · exact ⟨by decide, 50, by decide, by decide, by decide⟩

/-- A product carrying both a collar-range numeric ("39") and an alpha
token ("M"). -/
def cexProdC3 : Product :=
  { title := some "Widget".toList
    options := some ["Size".toList]
    variants := some [{ option1 := some "39".toList }, { option1 := some "M".toList }] }

/-- C3 counterexample: a product whose size values contain the
collar-range numeric "39" together with the alpha token "M" is classified
`alpha`, not `shirt_collar_eu` — alpha beats collar, contradicting the
claimed priority order. -/
theorem detect_priority_counterexample :
    collectOptionValues (some cexProdC3) (getOptionIndexByName (some cexProdC3) sizeNameMatchers)
      = ["39".toList, "M".toList] ∧
    (detectSizeSchemaFromProduct (some cexProdC3)).map (fun s => s.system) =
      some SizeSystem.alpha := by
  refine ⟨by decide, by decide⟩

/-- A product with W30/W32 waist-token size values. -/
def witProdC3 : Product :=
  { title := some "Widget".toList
    options := some ["Size".toList]
    variants := some [{ option1 := some "W30".toList }, { option1 := some "W32".toList }] }

/-- C3 witness: the amended theorem applied at a concrete product whose
size values are all W-tokens. -/
theorem detect_priority_amended_witness :
    (detectSizeSchemaFromProduct (some witProdC3)).map (fun s => s.system) =
      some SizeSystem.waist_inch := by
  apply detect_priority_amended.2
  · decide
  · intro v hv
    have hvs : collectOptionValues (some witProdC3)
        (getOptionIndexByName (some witProdC3) sizeNameMatchers)
        = ["W30".toList, "W32".toList] := by decide
    rw [hvs] at hv
    simp only [List.mem_cons, List.mem_singleton, List.not_mem_nil, or_false] at hv
    rcases hv with rfl | rfl
    · exact ⟨'3', '0', Or.inl (by decide), by decide, by decide, by decide, by decide⟩
    · exact ⟨'3', '2', Or.inl (by decide), by decide, by decide, by decide, by decide⟩

end DLSizing
